import Mathlib

/-!
Verification development for the fe-api-proxy document-to-client pipeline.

This file gives a shallow embedding, in Lean, of the parts of the source that
the checked properties are about:

* a `JSValue` model of dynamic JSON-like JavaScript values;
* the unified `Schema` type algebra (src/types.ts) and the JSON-Schema
  converter `jsonSchemaToSchema` (src/stage/extend/invoke/utils/schema.ts);
* the document merger `mergeDocuments` and its strategy detection
  (src/stage/extend/invoke/utils/merge.ts);
* the document fetcher `fetchApiDocumentation`
  (src/stage/extend/invoke/utils/fetch.ts), with the single-document
  fetch primitive treated as an external oracle;
* the code generator `generateClientSource` with its naming, collision and
  bundle-assembly logic (src/stage/extend/generator/generator.ts);
* the invoke stage adapter-selection and per-source loop
  (src/stage/extend/invoke/index.ts);
* the pipeline primary-document selection (src/pipeline/index.ts);
* the normalizer stage clone-then-mutate discipline
  (src/stage/extend/normalizer-stage.ts), over an explicit store so that
  in-place mutation of the working copy is observable.

JavaScript asynchronous functions that can throw are modelled in
`Except String`; `Promise.all` results are reduced in declaration order, which
matches the deterministic reduction the code performs on the awaited results.
-/

set_option maxRecDepth 10000

namespace FeApiProxy

/-! ## Dynamic JavaScript values -/

/-- Model of dynamic JSON-like JavaScript values (raw documents, metadata,
example payloads). Object fields are kept in insertion order; the embedding
assumes field keys are pairwise distinct, as they are for any value produced
by `JSON.parse` or an object literal. -/
inductive JSValue where
  | null : JSValue
  | bool (b : Bool) : JSValue
  | num (n : Int) : JSValue
  | str (s : String) : JSValue
  | arr (items : List JSValue) : JSValue
  | obj (fields : List (String × JSValue)) : JSValue

/-- First binding of a key in an association list (JS objects have unique
keys, so first = only). -/
def lookupField : List (String × JSValue) → String → Option JSValue
  | [], _ => none
  | (k, v) :: rest, key => if k = key then some v else lookupField rest key

/-- `value[key]` field access: only plain objects carry named fields in this
model (string indexing and array index properties are never used by the
embedded code on claim-relevant paths). -/
def getField : JSValue → String → Option JSValue
  | .obj fields, key => lookupField fields key
  | _, _ => none

/-- JavaScript truthiness of a value. -/
def jsTruthy : JSValue → Bool
  | .null => false
  | .bool b => b
  | .num n => n ≠ 0
  | .str s => s ≠ ""
  | .arr _ => true
  | .obj _ => true

/-- Truthiness of an optional field (`undefined` is falsy). -/
def jsTruthyOpt : Option JSValue → Bool
  | none => false
  | some v => jsTruthy v

/-- `typeof value === "object" && value` — objects and arrays pass, `null`
is excluded by the truthiness guard the code always pairs with the check. -/
def isJsObject : JSValue → Bool
  | .obj _ => true
  | .arr _ => true
  | _ => false

/-- Extract a string payload. -/
def getStr : JSValue → Option String
  | .str s => some s
  | _ => none

/-- `key in value`: own-property membership used by `isSwaggerLike`
(`'paths' in value`). Arrays never carry the probed named keys. -/
def jsHasKey : JSValue → String → Bool
  | .obj fields, key => fields.any (fun p => p.1 = key)
  | _, _ => false

/-- Assign `target[key] = v`: replace the first binding in place, else append
(JS property-assignment order semantics). -/
def objSet : List (String × JSValue) → String → JSValue → List (String × JSValue)
  | [], key, v => [(key, v)]
  | (k, w) :: rest, key, v =>
    if k = key then (k, v) :: rest else (k, w) :: objSet rest key v

/-- Own enumerable string-keyed entries, as used by `Object.entries` and
object spread. Arrays and strings expose index keys; primitives expose
nothing. -/
def jsEntries : JSValue → List (String × JSValue)
  | .obj fields => fields
  | .arr items => (items.enum.map fun p => (toString p.1, p.2))
  | .str s => ((s.toList.enum.map fun p => (toString p.1, JSValue.str (String.mk [p.2]))))
  | _ => []

/-- Spread `{...target, ...source}` realised as repeated assignment of
`source`'s entries into `target`'s fields. -/
def spreadInto (target : List (String × JSValue)) (source : JSValue) :
    List (String × JSValue) :=
  (jsEntries source).foldl (fun acc p => objSet acc p.1 p.2) target

/-! ## The unified Schema algebra (src/types.ts) -/

/-- Kinds of `PrimitiveSchema`. -/
inductive PrimKind where
  | string | number | integer | boolean | null | any | unknown
deriving DecidableEq

/-- The `kind` discriminator string of a primitive schema. -/
def PrimKind.str : PrimKind → String
  | .string => "string"
  | .number => "number"
  | .integer => "integer"
  | .boolean => "boolean"
  | .null => "null"
  | .any => "any"
  | .unknown => "unknown"

/-- Common `BaseSchema` attributes. `exampleVal` models the `example`
attribute (`example` is reserved in Lean). -/
structure SchemaMeta where
  description : Option String := none
  nullable : Option Bool := none
  title : Option String := none
  exampleVal : Option JSValue := none

mutual
/-- The unified type-algebra node (`Schema` union in src/types.ts).
`required` keeps only the string entries of the raw `required` array; the
dropped non-string entries can never equal a property key, so the
generator's `required.has(key)` test is unaffected. -/
inductive Schema where
  | prim (kind : PrimKind) (format : Option String) (meta : SchemaMeta)
  | obj (properties : List (String × Schema)) (required : Option (List String))
        (addl : Option AddlProps) (meta : SchemaMeta)
  | arr (element : Option Schema) (minItems maxItems : Option Int) (meta : SchemaMeta)
  | enumS (values : List JSValue) (meta : SchemaMeta)
  | oneOf (variants : List Schema) (meta : SchemaMeta)
/-- `additionalProperties`: absent, boolean, or a nested schema. -/
inductive AddlProps where
  | ofBool (b : Bool)
  | ofSchema (s : Schema)
end

/-- The `kind` discriminator of a schema node. -/
def Schema.kindStr : Schema → String
  | .prim k _ _ => k.str
  | .obj _ _ _ _ => "object"
  | .arr _ _ _ _ => "array"
  | .enumS _ _ => "enum"
  | .oneOf _ _ => "oneOf"

/-- The `nullable` attribute of a schema node. -/
def Schema.nullableAttr : Schema → Option Bool
  | .prim _ _ m => m.nullable
  | .obj _ _ _ m => m.nullable
  | .arr _ _ _ m => m.nullable
  | .enumS _ m => m.nullable
  | .oneOf _ m => m.nullable

/-! ## JSON-Schema conversion (src/stage/extend/invoke/utils/schema.ts)

The converter recurses through subvalues reached by field lookup, so its
termination rests on a few `sizeOf` facts stated next (they are proof
obligations of the definitions, hence appear before them). -/

/-- Indexing used to model `Object.keys` enumeration of an array. -/
def enumFrom : Nat → List JSValue → List (Nat × JSValue)
  | _, [] => []
  | n, v :: rest => (n, v) :: enumFrom (n + 1) rest

/-- Property entries the converter actually recurses into: object fields in
insertion order and array index entries. A string-valued `properties` would
enumerate one-character strings, each of which the recursive call rejects as
a non-object, so mapping it (and other primitives) to the empty list is
extensionally faithful. -/
def entriesForRec : JSValue → List (String × JSValue)
  | .obj fields => fields
  | .arr items => (enumFrom 0 items).map fun p => (toString p.1, p.2)
  | _ => []

theorem sizeOf_lookupField {fields : List (String × JSValue)} {k : String}
    {v : JSValue} (h : lookupField fields k = some v) : sizeOf v < sizeOf fields := by
  induction fields with
  | nil => simp [lookupField] at h
  | cons hd tl ih =>
    obtain ⟨k0, v0⟩ := hd
    by_cases hk : k0 = k
    · simp [lookupField, hk] at h
      subst h
      simp only [List.cons.sizeOf_spec, Prod.mk.sizeOf_spec]
      omega
    · simp [lookupField, hk] at h
      have := ih h
      simp only [List.cons.sizeOf_spec, Prod.mk.sizeOf_spec]
      omega

theorem sizeOf_getField {v : JSValue} {k : String} {w : JSValue}
    (h : getField v k = some w) : sizeOf w < sizeOf v := by
  cases v <;> simp [getField] at h
  case obj fields =>
    have := sizeOf_lookupField h
    simp only [JSValue.obj.sizeOf_spec]
    omega

theorem sizeOf_mem_fields {fields : List (String × JSValue)} {k : String}
    {v : JSValue} (h : (k, v) ∈ fields) : sizeOf v < sizeOf fields := by
  have h1 := List.sizeOf_lt_of_mem h
  have h2 : sizeOf (k, v) = 1 + sizeOf k + sizeOf v := by
    simp only [Prod.mk.sizeOf_spec]
  omega

theorem mem_of_mem_enumFrom {n : Nat} {items : List JSValue} {p : Nat × JSValue}
    (h : p ∈ enumFrom n items) : p.2 ∈ items := by
  induction items generalizing n with
  | nil => simp [enumFrom] at h
  | cons hd tl ih =>
    simp only [enumFrom, List.mem_cons] at h
    rcases h with h | h
    · subst h; simp
    · exact List.mem_cons_of_mem _ (ih h)

theorem sizeOf_mem_entriesForRec {pv : JSValue} {k : String} {v : JSValue}
    (h : (k, v) ∈ entriesForRec pv) : sizeOf v < sizeOf pv := by
  cases pv <;> simp [entriesForRec] at h
  case obj fields =>
    have := sizeOf_mem_fields h
    simp only [JSValue.obj.sizeOf_spec]
    omega
  case arr items =>
    obtain ⟨a, hmem, _⟩ := h
    have hb : v ∈ items := mem_of_mem_enumFrom (p := (a, v)) hmem
    have := List.sizeOf_lt_of_mem hb
    simp only [JSValue.arr.sizeOf_spec]
    omega

/-- The entries of `input.properties || {}` that the converter walks. -/
def propsEntriesOf (input : JSValue) : List (String × JSValue) :=
  match getField input "properties" with
  | some pv => if jsTruthy pv then entriesForRec pv else []
  | none => []

theorem sizeOf_propsEntriesOf {input : JSValue} {p : String × JSValue}
    (h : p ∈ propsEntriesOf input) : sizeOf p.2 < sizeOf input := by
  unfold propsEntriesOf at h
  rcases hg : getField input "properties" with _ | pv
  · rw [hg] at h; simp at h
  · rw [hg] at h
    by_cases ht : jsTruthy pv
    · simp [ht] at h
      have h1 : sizeOf p.2 < sizeOf pv :=
        sizeOf_mem_entriesForRec (k := p.1) (v := p.2) (by simpa using h)
      have h2 := sizeOf_getField hg
      omega
    · simp [ht] at h

theorem sizeOf_mem_list {v : JSValue} {vs : List JSValue} (h : v ∈ vs) :
    sizeOf v < sizeOf (JSValue.arr vs) := by
  have := List.sizeOf_lt_of_mem h
  simp only [JSValue.arr.sizeOf_spec]
  omega

/-- Primitive `kind` strings recognised by the converter's `switch`. -/
def primKindOfStr : String → Option PrimKind
  | "string" => some .string
  | "number" => some .number
  | "integer" => some .integer
  | "boolean" => some .boolean
  | "null" => some .null
  | _ => none

/-- Mirror of `jsonSchemaToSchema` (src/stage/extend/invoke/utils/schema.ts).

Modelling notes, none reachable by a well-formed JSON-Schema payload:
* `description`/`title`/`format` are raw casts in the source; non-string
  values are dropped here instead of being stored with a lying type;
* `examples?.[0]` indexing is modelled for arrays only;
* a truthy non-array `oneOf`/`anyOf` makes the source throw a `TypeError`
  from `.map`; the model falls through to the next branch instead;
* a truthy non-array `enum` is stored by the source as-is (with a lying
  type) and would crash the generator; the model wraps it in a singleton
  (the empty array is truthy in JS, hence yields an empty enum). -/
def jsonSchemaToSchema (input : JSValue) : Option Schema :=
  if jsTruthy input && isJsObject input then
    let nullable := jsTruthyOpt (getField input "nullable")
    let description := (getField input "description").bind getStr
    let title := (getField input "title").bind getStr
    let exFromExamples : Option JSValue :=
      match getField input "examples" with
      | some (.arr vs) => vs.head?
      | _ => none
    let exampleV : Option JSValue :=
      match getField input "example" with
      | none => exFromExamples
      | some .null => exFromExamples
      | some v => some v
    let meta : SchemaMeta :=
      { description := description, nullable := some nullable,
        title := title, exampleVal := exampleV }
    let typeStrV : Option JSValue :=
      match getField input "type" with
      | some (.arr ts) =>
        if ts.any (fun t => match t with | .str s => s = "null" | _ => false) then
          match ts.find? (fun t => match t with | .str s => s ≠ "null" | _ => true) with
          | some v => if jsTruthy v then some v else ts.head?
          | none => ts.head?
        else ts.head?
      | other => other
    if jsTruthyOpt typeStrV = false then
      match hOne : getField input "oneOf" with
      | some (.arr vs) =>
        some (.oneOf (vs.attach.filterMap fun v => jsonSchemaToSchema v.1) meta)
      | _ =>
        match hAny : getField input "anyOf" with
        | some (.arr vs) =>
          some (.oneOf (vs.attach.filterMap fun v => jsonSchemaToSchema v.1) meta)
        | _ =>
          match getField input "enum" with
          | some (.arr vs) => some (.enumS vs meta)
          | some v =>
            if jsTruthy v then some (.enumS [v] meta)
            else some (.prim .unknown none meta)
          | none => some (.prim .unknown none meta)
    else
      match typeStrV with
      | some (.str s) =>
        if s = "object" then
          let properties : List (String × Schema) :=
            ((propsEntriesOf input).attach.filterMap fun p =>
              (jsonSchemaToSchema p.1.2).map fun c => (p.1.1, c))
          let addl : Option AddlProps :=
            match hA : getField input "additionalProperties" with
            | some (.bool b) => some (.ofBool b)
            | some av =>
              if jsTruthy av && isJsObject av then
                (jsonSchemaToSchema av).map AddlProps.ofSchema
              else none
            | none => none
          let required : Option (List String) :=
            match getField input "required" with
            | some (.arr vs) => some (vs.filterMap getStr)
            | _ => none
          some (.obj properties required addl meta)
        else if s = "array" then
          let element : Option Schema :=
            match hI : getField input "items" with
            | some iv => jsonSchemaToSchema iv
            | none => none
          let minItems : Option Int :=
            match getField input "minItems" with
            | some (.num n) => some n
            | _ => none
          let maxItems : Option Int :=
            match getField input "maxItems" with
            | some (.num n) => some n
            | _ => none
          some (.arr element minItems maxItems meta)
        else
          match primKindOfStr s with
          | some k => some (.prim k ((getField input "format").bind getStr) meta)
          | none => some (.prim .unknown none meta)
      | _ => some (.prim .unknown none meta)
  else none
termination_by sizeOf input
decreasing_by
  all_goals simp_wf
  · have h1 := sizeOf_mem_list v.2
    have h2 := sizeOf_getField hOne
    omega
  · have h1 := sizeOf_mem_list v.2
    have h2 := sizeOf_getField hAny
    omega
  · exact sizeOf_propsEntriesOf p.2
  · exact sizeOf_getField hA
  · exact sizeOf_getField hI

/-! ## Document merging (src/stage/extend/invoke/utils/merge.ts) -/

/-- Merge strategies (`MergeStrategy` in types.ts): the string-valued
policies plus a caller-supplied total override function. -/
inductive MergeStrategy where
  | auto
  | swagger
  | openapi
  | jsonArray
  | first
  | custom (f : List JSValue → JSValue)

/-- `isSwaggerLike`: a truthy object carrying a `paths` key (arrays carry
index keys only and never qualify). -/
def isSwaggerLike (v : JSValue) : Bool :=
  jsTruthy v && isJsObject v && jsHasKey v "paths"

/-- `detectMergeStrategy`: one document → `first`; all OpenAPI/Swagger-shaped
→ `swagger`; otherwise `json-array`. -/
def detectMergeStrategy (documents : List JSValue) : MergeStrategy :=
  if documents.length = 1 then .first
  else if documents.all isSwaggerLike then .swagger
  else .jsonArray

/-- `collectTags`: fold tag objects into a name-keyed map, merging a repeat
via spread (`{...existing, ...tag}`) while keeping the first-insertion
position, as a JS `Map` does. -/
def collectTags (target : List (String × JSValue)) (source : JSValue) :
    List (String × JSValue) :=
  match source with
  | .arr tags =>
    tags.foldl
      (fun acc tag =>
        if jsTruthy tag && isJsObject tag then
          match getField tag "name" with
          | some (.str name) =>
            match lookupField acc name with
            | some existing => objSet acc name (.obj (spreadInto (spreadInto [] existing) tag))
            | none => acc ++ [(name, tag)]
          | _ => acc
        else acc)
      target
  | _ => target

/-- `collectServers`: like `collectTags` but keyed by `url`. -/
def collectServers (target : List (String × JSValue)) (source : JSValue) :
    List (String × JSValue) :=
  match source with
  | .arr servers =>
    servers.foldl
      (fun acc server =>
        if jsTruthy server && isJsObject server then
          match getField server "url" with
          | some (.str url) =>
            match lookupField acc url with
            | some existing => objSet acc url (.obj (spreadInto (spreadInto [] existing) server))
            | none => acc ++ [(url, server)]
          | _ => acc
        else acc)
      target
  | _ => target

/-- `mergeComponentSection`: merge a `components`/`definitions`-style record
into a target one section key at a time, spreading mergeable objects and
replacing everything else. -/
def mergeComponentSection (target : List (String × JSValue)) (source : Option JSValue) :
    List (String × JSValue) :=
  match source with
  | none => target
  | some src =>
    if jsTruthy src then
      (jsEntries src).foldl
        (fun acc p =>
          match lookupField acc p.1 with
          | some current =>
            if jsTruthy current && isJsObject current &&
                !(current matches .arr _) then
              objSet acc p.1 (.obj (spreadInto (spreadInto [] current) p.2))
            else objSet acc p.1 p.2
          | none => objSet acc p.1 p.2)
        target
    else target

/-- One `rest` document folded into the accumulated swagger merge state. -/
def mergeSwaggerStep
    (state : List (String × JSValue) × List (String × JSValue) ×
      List (String × JSValue) × List (String × JSValue))
    (doc : JSValue) :
    List (String × JSValue) × List (String × JSValue) ×
      List (String × JSValue) × List (String × JSValue) :=
  let (paths, components, tagMap, serverMap) := state
  let docPaths :=
    match getField doc "paths" with
    | some .null => []
    | some pv => jsEntries pv
    | none => []
  let paths :=
    docPaths.foldl
      (fun acc p =>
        let current :=
          match lookupField acc p.1 with
          | some c => spreadInto [] c
          | none => []
        objSet acc p.1 (.obj (spreadInto current p.2)))
      paths
  let components := mergeComponentSection components (getField doc "components")
  let tagMap := collectTags tagMap ((getField doc "tags").getD .null)
  let serverMap := collectServers serverMap ((getField doc "servers").getD .null)
  (paths, components, tagMap, serverMap)

/-- `mergeSwaggerDocuments`: spread the first document, then fold the rest
into `paths`/`components`/tag and server maps; finally write the collected
`tags`/`servers` arrays back when non-empty. -/
def mergeSwaggerDocuments (documents : List JSValue) : JSValue :=
  match documents with
  | [] => .obj []
  | first :: rest =>
    let firstPaths :=
      match getField first "paths" with
      | some .null => []
      | some pv => spreadInto [] pv
      | none => []
    let firstComponents :=
      match getField first "components" with
      | some .null => []
      | some cv => spreadInto [] cv
      | none => []
    let tagMap := collectTags [] ((getField first "tags").getD .null)
    let serverMap := collectServers [] ((getField first "servers").getD .null)
    let (paths, components, tagMap, serverMap) :=
      rest.foldl mergeSwaggerStep (firstPaths, firstComponents, tagMap, serverMap)
    let merged := spreadInto [] first
    let merged := objSet merged "paths" (.obj paths)
    let merged := objSet merged "components" (.obj components)
    let merged :=
      if !tagMap.isEmpty then objSet merged "tags" (.arr (tagMap.map Prod.snd)) else merged
    let merged :=
      if !serverMap.isEmpty then objSet merged "servers" (.arr (serverMap.map Prod.snd)) else merged
    .obj merged

/-- Mirror of `mergeDocuments`: empty input fails fast; a function strategy
is a total override; `auto` (and a missing strategy) defers to detection;
`swagger`/`openapi` demand every document be OpenAPI/Swagger-shaped. The
typed strategy union leaves the JS `default` switch arm unreachable. -/
def mergeDocuments (documents : List JSValue) (strategy : Option MergeStrategy) :
    Except String JSValue :=
  match documents with
  | [] => .error "No documents fetched to merge."
  | d0 :: _ =>
    match strategy with
    | some (.custom f) => .ok (f documents)
    | _ =>
      let applied :=
        match strategy with
        | some .auto => detectMergeStrategy documents
        | some s => s
        | none => detectMergeStrategy documents
      match applied with
      | .first => .ok d0
      | .jsonArray => .ok (.arr documents)
      | .swagger | .openapi =>
        let swaggerDocs := documents.filter isSwaggerLike
        if swaggerDocs.length = 0 ∨ swaggerDocs.length ≠ documents.length then
          .error "Merge strategy swagger requested but not all documents appear to be OpenAPI/Swagger."
        else .ok (mergeSwaggerDocuments swaggerDocs)
      | _ =>
        let swaggerDocs := documents.filter isSwaggerLike
        if swaggerDocs.length = documents.length ∧ swaggerDocs.length > 0 then
          .ok (mergeSwaggerDocuments swaggerDocs)
        else if documents.length = 1 then .ok d0
        else .ok (.arr documents)

/-! ## Document fetching (src/stage/extend/invoke/utils/fetch.ts)

`fetchSingleDocument` performs network or filesystem I/O through external
collaborators, so it is treated as an oracle supplied in a `FetchEnv`;
`fetchApiDocumentation` itself — the source-shape dispatch, the follow-up
resolution and the merge — is embedded. Rejected promises and thrown errors
are `Except.error` values carrying the error. -/

/-- A single-request document source: URL string, `URL` object, or a request
descriptor (the descriptor's fields are only consumed by the oracle). -/
inductive DocSourceSingle where
  | urlStr (s : String)
  | urlObj (s : String)
  | request (url : String) (parseAs : Option String)

/-- `resolveRequests` may return one request or an array of requests. -/
inductive ResolveOutcome where
  | one (r : DocSourceSingle)
  | many (rs : List DocSourceSingle)

/-- `ensureArray`. -/
def ensureArray : ResolveOutcome → List DocSourceSingle
  | .one r => [r]
  | .many rs => rs

/-- `ApiDocSource` (types.ts). A JS object shaped as both a discovery and a
multi-endpoint source takes the discovery branch, matching the guard order
in the code; the sum type keeps the branches disjoint. -/
inductive ApiDocSource where
  | single (s : DocSourceSingle)
  | multi (requests : List DocSourceSingle) (mergeStrategy : Option MergeStrategy)
  | discovery (discovery : DocSourceSingle)
      (resolveRequests : JSValue → Except String ResolveOutcome)
      (mergeStrategy : Option MergeStrategy)

/-- The external single-document fetch primitive (HTTP fetch or file read +
JSON parse), supplied as an oracle. -/
structure FetchEnv where
  fetchSingle : DocSourceSingle → Except String JSValue

/-- Mirror of `fetchApiDocumentation`. `Promise.all` results are reduced in
request-declaration order. -/
def fetchApiDocumentation (env : FetchEnv) (source : ApiDocSource) :
    Except String JSValue :=
  match source with
  | .discovery disc resolve ms => do
    let entry ← env.fetchSingle disc
    let followups ← resolve entry
    let requests := ensureArray followups
    if requests.isEmpty then
      throw "Discovery source returned no follow-up requests."
    let documents ← requests.mapM env.fetchSingle
    mergeDocuments documents ms
  | .multi requests ms =>
    if requests.isEmpty then
      .error "Multi-endpoint source requires at least one request."
    else do
      let documents ← requests.mapM env.fetchSingle
      mergeDocuments documents ms
  | .single s => env.fetchSingle s

/-! ## The unified service model (src/types.ts) -/

/-- `HttpMethod`. -/
inductive HttpMethod where
  | GET | POST | PUT | DELETE | PATCH | HEAD | OPTIONS
deriving DecidableEq

/-- The verb as the string the model carries at runtime. -/
def HttpMethod.str : HttpMethod → String
  | .GET => "GET"
  | .POST => "POST"
  | .PUT => "PUT"
  | .DELETE => "DELETE"
  | .PATCH => "PATCH"
  | .HEAD => "HEAD"
  | .OPTIONS => "OPTIONS"

/-- `method.toLowerCase()`. -/
def HttpMethod.lower : HttpMethod → String
  | .GET => "get"
  | .POST => "post"
  | .PUT => "put"
  | .DELETE => "delete"
  | .PATCH => "patch"
  | .HEAD => "head"
  | .OPTIONS => "options"

/-- `ParameterDefinition`; `loc` models the `in` field (reserved in Lean). -/
structure ParameterDefinition where
  name : String
  loc : String
  required : Bool := false
  description : Option String := none
  schema : Option Schema := none

/-- The by-location parameter groups of an endpoint. -/
structure EndpointParams where
  path : Option (List ParameterDefinition) := none
  query : Option (List ParameterDefinition) := none
  header : Option (List ParameterDefinition) := none

/-- `RequestBodyDefinition`. -/
structure RequestBodyDefinition where
  required : Bool := false
  contentType : Option String := none
  schema : Option Schema := none

/-- `status?: number | 'default'`. -/
inductive RespStatus where
  | num (n : Int)
  | strDefault

/-- `ResponseDefinition`. -/
structure ResponseDefinition where
  status : Option RespStatus := none
  description : Option String := none
  contentType : Option String := none
  schema : Option Schema := none

/-- `EndpointDefinition`. -/
structure EndpointDefinition where
  id : String
  name : Option String := none
  description : Option String := none
  path : String
  method : HttpMethod
  tags : Option (List String) := none
  parameters : Option EndpointParams := none
  body : Option RequestBodyDefinition := none
  responses : Option (List ResponseDefinition) := none

/-- `source` provenance of a service definition. -/
structure SourceInfo where
  kind : String
  raw : Option JSValue := none

/-- `ServiceDefinition`. `types` keeps `Object.entries` insertion order. -/
structure ServiceDefinition where
  title : Option String := none
  version : Option String := none
  description : Option String := none
  servers : Option (List String) := none
  types : Option (List (String × Schema)) := none
  endpoints : List EndpointDefinition
  source : Option SourceInfo := none

/-! ## String helpers of the code generator
(src/stage/extend/generator/generator.ts)

All character-level work happens on `List Char` with structural recursion so
that concrete bundles evaluate inside the kernel. `String.toList`,
`String.mk`, append and `String.intercalate` are the only bridges. -/

/-- JS `||` on an optional string: falsy (`undefined` or `""`) picks the
default. -/
def jsOrElse (o : Option String) (dflt : String) : String :=
  match o with
  | some s => if s = "" then dflt else s
  | none => dflt

/-- Whitespace as matched by JS `\s` / `trim` (ASCII portion; the inputs the
generator sees are ASCII path and identifier characters). -/
def jsIsWs (c : Char) : Bool :=
  c = ' ' || c = '\t' || c = '\n' || c = '\r' || c.val == 11 || c.val == 12

/-- Trim leading and trailing whitespace from a character list. -/
def jsTrimL (l : List Char) : List Char :=
  ((l.dropWhile jsIsWs).reverse.dropWhile jsIsWs).reverse

/-- `String.prototype.trim`. -/
def jsTrim (s : String) : String :=
  String.mk (jsTrimL s.toList)

/-- Split at every separator character, keeping empty pieces — the behaviour
of JS `split` with a one-character string separator. -/
def splitRuns (p : Char → Bool) : List Char → List (List Char)
  | [] => [[]]
  | c :: rest =>
    match splitRuns p rest with
    | [] => [[c]]
    | h :: t => if p c then [] :: h :: t else (c :: h) :: t

/-- JS `s.split(sep)` for a one-character separator. -/
def jsSplitChar (sep : Char) (s : String) : List String :=
  (splitRuns (fun c => c = sep) s.toList).map String.mk

/-- `[^a-zA-Z0-9_]` complement: the characters `safeId` keeps. -/
def isWordChar (c : Char) : Bool :=
  c.isAlphanum || c = '_'

/-- Mirror of `safeId`: map every non-word character to `_` and guard a
leading digit with `_`. -/
def safeId (id : String) : String :=
  let cleaned := id.toList.map fun c => if isWordChar c then c else '_'
  match cleaned with
  | c :: _ => if c.isDigit then String.mk ('_' :: cleaned) else String.mk cleaned
  | [] => ""

/-- `charAt(0).toUpperCase() + slice(1)`. -/
def capitalizeWord : List Char → List Char
  | [] => []
  | c :: rest => c.toUpper :: rest

/-- Mirror of `toPascalCase`: `safeId`, split on `[_\s]+` runs discarding
empties, capitalize each part, join. -/
def toPascalCase (value : String) : String :=
  let parts :=
    (splitRuns (fun c => c = '_' || jsIsWs c) (safeId value).toList).filter (· ≠ [])
  String.join (parts.map fun part => String.mk (capitalizeWord part))

/-- The global replace `([a-z0-9])([A-Z])` → `$1-$2` as a one-pass scan:
`prevEligible` records whether the previous character may serve as the `$1`
of a match (it is `[a-z0-9]` and was not itself consumed by a match; a
consumed `$2` is upper-case, hence never eligible, so the flag-reset on a
match is equivalent to the regex engine's two-character consumption). -/
def kebabGo (prevEligible : Bool) : List Char → List Char
  | [] => []
  | c :: rest =>
    if prevEligible && c.isUpper then '-' :: c :: kebabGo false rest
    else c :: kebabGo (c.isLower || c.isDigit) rest

/-- The global replace `([a-z0-9])([A-Z])` → `$1-$2`. -/
def kebabHyphens (l : List Char) : List Char :=
  kebabGo false l

/-- The global replace `\s+` → `-`: each whitespace run becomes one hyphen. -/
def collapseWsToHyphen : List Char → List Char
  | [] => []
  | c :: rest =>
    match rest with
    | [] => if jsIsWs c then ['-'] else [c]
    | d :: _ =>
      if jsIsWs c then
        if jsIsWs d then collapseWsToHyphen rest else '-' :: collapseWsToHyphen rest
      else c :: collapseWsToHyphen rest

/-- Mirror of `toKebabCase`. -/
def toKebabCase (value : String) : String :=
  let pascal := toPascalCase value
  String.mk ((collapseWsToHyphen (kebabHyphens pascal.toList)).map Char.toLower)

/-- Drop a trailing run of a character (`replace(/\}+$/, '')`). -/
def dropTrailingRun (c : Char) (l : List Char) : List Char :=
  (l.reverse.dropWhile (· = c)).reverse

/-- Collapse runs of spaces to a single space (the effect of the global
replace `[^a-zA-Z0-9]+` → `' '` after every such character was mapped to a
space). -/
def collapseSpaceRuns : List Char → List Char
  | [] => []
  | c :: rest =>
    match rest with
    | [] => [c]
    | d :: _ =>
      if c = ' ' && d = ' ' then collapseSpaceRuns rest
      else c :: collapseSpaceRuns rest

/-- Mirror of `normalizePathSegment`. -/
def normalizePathSegment (segment : String) (index : Nat) : String :=
  let unwrapped :=
    jsTrimL (((segment.toList.dropWhile (· = '{')) |> dropTrailingRun '}').dropWhile (· = ':'))
  if unwrapped = [] then "part-" ++ toString (index + 1)
  else
    let cleaned :=
      jsTrimL (collapseSpaceRuns (unwrapped.map fun c => if c.isAlphanum then c else ' '))
    let kebab := if cleaned ≠ [] then toKebabCase (String.mk cleaned) else ""
    if kebab ≠ "" then kebab else "part-" ++ toString (index + 1)

/-- Mirror of `extractPathSegments`. -/
def extractPathSegments (pathValue fallbackBase : String) (fallbackIndex : Nat) :
    List String :=
  let rawSegments :=
    ((splitRuns (fun c => c = '/') pathValue.toList).map jsTrimL).filter (· ≠ [])
  let normalized :=
    rawSegments.enum.map fun p => normalizePathSegment (String.mk p.2) p.1
  if normalized ≠ [] then normalized
  else
    let fallback := toKebabCase fallbackBase
    [if fallback ≠ "" then fallback else "endpoint-" ++ toString (fallbackIndex + 1)]

/-- Slash-interposed concatenation. -/
def joinCore : List String → String
  | [] => ""
  | x :: rest =>
    match rest with
    | [] => x
    | _ :: _ => x ++ "/" ++ joinCore rest

/-- `path.posix.join` restricted to the generator's sanitized components:
they are non-empty and contain neither `/` nor `.`, so joining is plain
interposition (node would additionally drop empty arguments and normalize
`.`/`..` segments). -/
def posixJoin (segments : List String) : String :=
  joinCore (segments.filter (· ≠ ""))

/-- `path.posix.dirname` for the relative, slash-normalized filenames the
generator produces. -/
def posixDirname (p : String) : String :=
  let parts := jsSplitChar '/' p
  if parts.length ≤ 1 then "." else String.intercalate "/" parts.dropLast

/-- Path components for relative-path computation; `"."` means the current
directory. -/
def relParts (p : String) : List String :=
  if p = "." then [] else (jsSplitChar '/' p).filter (· ≠ "")

/-- Drop the common prefix of two component lists. -/
def dropCommonPfx : List String → List String → List String × List String
  | a :: as, b :: bs =>
    if a = b then dropCommonPfx as bs else (a :: as, b :: bs)
  | as, bs => (as, bs)

/-- `path.posix.relative` for already-normalized relative inputs: walk up
out of the remaining origin components, then down the remaining target
components. -/
def posixRelative (p q : String) : String :=
  let pr := dropCommonPfx (relParts p) (relParts q)
  String.intercalate "/" (pr.1.map (fun _ => "..") ++ pr.2)

/-- `s.replace(/\.ts$/, '')` generalized to any suffix. -/
def stripSuffixStr (s suffix : String) : String :=
  if suffix.toList.isSuffixOf s.toList then
    String.mk (s.toList.take (s.toList.length - suffix.toList.length))
  else s

/-- Last path component (`path.posix.basename` on our inputs). -/
def lastComponent (p : String) : String :=
  match (jsSplitChar '/' p).getLast? with
  | some x => x
  | none => ""

/-- Mirror of `computeRelativeModulePath`. -/
def computeRelativeModulePath (fromFilename targetFilename : String) : String :=
  let fromDir := posixDirname fromFilename
  let targetWithoutExt := stripSuffixStr targetFilename ".ts"
  let origin := if fromDir = "." then "." else fromDir
  let relative := posixRelative origin targetWithoutExt
  if relative = "" then "./" ++ lastComponent targetWithoutExt
  else if relative.toList.head? = some '.' then relative
  else "./" ++ relative

/-- Mirror of `indentBlock`. -/
def indentBlock (text : String) (level : Nat) : String :=
  let pad := String.join (List.replicate level "  ")
  String.intercalate "\n"
    ((jsSplitChar '\n' text).map fun line => if line ≠ "" then pad ++ line else line)

/-- JSON string escaping for the characters that occur in the generator's
inputs (other control characters never do). -/
def jsonEscapeChar (c : Char) : List Char :=
  if c = '"' then ['\\', '"']
  else if c = '\\' then ['\\', '\\']
  else if c = '\n' then ['\\', 'n']
  else if c = '\r' then ['\\', 'r']
  else if c = '\t' then ['\\', 't']
  else [c]

/-- `JSON.stringify` of a string. -/
def jsonQuote (s : String) : String :=
  "\"" ++ String.mk (s.toList.map jsonEscapeChar).flatten ++ "\""

/-- `JSON.stringify` of a literal value (used for enum members). -/
def jsonStringify : JSValue → String
  | .null => "null"
  | .bool b => cond b "true" "false"
  | .num n => toString n
  | .str s => jsonQuote s
  | .arr vs =>
    "[" ++ String.intercalate "," (vs.attach.map fun v => jsonStringify v.1) ++ "]"
  | .obj fields =>
    "\x7b" ++
      String.intercalate ","
        (fields.attach.map fun p =>
          match p with
          | ⟨(k, v), _⟩ => jsonQuote k ++ ":" ++ jsonStringify v) ++
      "\x7d"
termination_by v => sizeOf v
decreasing_by
  all_goals simp_wf
  · have h1 := List.sizeOf_lt_of_mem v.2
    omega
  · rename_i hmem
    have h1 := sizeOf_mem_fields hmem
    omega

/-! ## Type rendering and per-endpoint file rendering -/

/-- The `BaseSchema` attributes of a schema node. -/
def Schema.metaOf : Schema → SchemaMeta
  | .prim _ _ m => m
  | .obj _ _ _ m => m
  | .arr _ _ _ m => m
  | .enumS _ m => m
  | .oneOf _ m => m

theorem sizeOf_snd_mem_props {props : List (String × Schema)} {p : String × Schema}
    (h : p ∈ props) : sizeOf p.2 < sizeOf props := by
  have h1 := List.sizeOf_lt_of_mem h
  have h2 : sizeOf p = 1 + sizeOf p.1 + sizeOf p.2 := by
    cases p; simp only [Prod.mk.sizeOf_spec]
  omega

/-- A truthy (non-empty) optional string rendered as a doc comment line, the
`value?.description ? '/** ... */\n' : ''` pattern. -/
def descComment (o : Option String) : String :=
  match o with
  | some d => if d ≠ "" then "/** " ++ d ++ " */\n" else ""
  | none => ""

/-- Mirror of `schemaToTs` (`Schema -> TypeScript type text`). -/
def schemaToTs (schema : Option Schema) (level : Nat) : String :=
  match schema with
  | none => "unknown"
  | some (.prim k _ _) =>
    match k with
    | .string => "string"
    | .number => "number"
    | .integer => "number"
    | .boolean => "boolean"
    | .null => "null"
    | .any => "any"
    | .unknown => "unknown"
  | some (.enumS values _) =>
    let rendered := String.intercalate " | " (values.map jsonStringify)
    if rendered = "" then "unknown" else rendered
  | some (.oneOf variants _) =>
    let rendered := variants.attach.map fun v => schemaToTs (some v.1) level
    if rendered.isEmpty then "unknown" else String.intercalate " | " rendered
  | some (.arr element _ _ _) =>
    "Array<" ++
      (match element with
       | some e => schemaToTs (some e) level
       | none => "unknown") ++ ">"
  | some (.obj properties required addl _) =>
    let requiredList := required.getD []
    let propEntries := properties.attach.map fun p =>
      descComment (Schema.metaOf p.1.2).description ++
        jsonQuote p.1.1 ++ (if requiredList.contains p.1.1 then "" else "?") ++ ": " ++
        schemaToTs (some p.1.2) (level + 1) ++ ";"
    let addlEntries : List String :=
      match addl with
      | some (.ofBool true) => ["[key: string]: unknown;"]
      | some (.ofSchema s2) => ["[key: string]: " ++ schemaToTs (some s2) (level + 1) ++ ";"]
      | _ => []
    let entries := propEntries ++ addlEntries
    if entries.isEmpty then "\x7b\x7d"
    else
      "\x7b\n" ++ indentBlock (String.intercalate "\n" entries) (level + 1) ++ "\n" ++
        String.join (List.replicate level "  ") ++ "\x7d"
termination_by sizeOf schema
decreasing_by
  all_goals simp_wf
  all_goals
    first
    | (have h1 := List.sizeOf_lt_of_mem v.2; omega)
    | (have h1 := sizeOf_snd_mem_props p.2; omega)
    | omega

/-- `RequestProperty`. -/
structure RequestProperty where
  text : String
  isRequired : Bool

/-- Mirror of `renderParameterObject`. -/
def renderParameterObject (params : Option (List ParameterDefinition)) (level : Nat) :
    Option String :=
  match params with
  | none => none
  | some ps =>
    if ps.isEmpty then none
    else
      let lines := ps.map fun prm =>
        descComment prm.description ++
          jsonQuote prm.name ++ (if !prm.required then "?" else "") ++ ": " ++
          schemaToTs prm.schema (level + 1) ++ ";"
      some ("\x7b\n" ++ indentBlock (String.intercalate "\n" lines) (level + 1) ++ "\n" ++
        String.join (List.replicate level "  ") ++ "\x7d")

/-- Mirror of `makeProperty`. -/
def makeProperty (name type_ : String) (optional : Bool) : RequestProperty :=
  let formattedType :=
    if type_.toList.contains '\n' then
      String.mk ((type_.toList.map fun c =>
        if c = '\n' then ['\n', ' ', ' '] else [c]).flatten)
    else type_
  { text := "  " ++ jsonQuote name ++ (if optional then "?" else "") ++ ": " ++
      formattedType ++ ";",
    isRequired := !optional }

/-- Mirror of `renderRequestType`; returns the interface text and the
`hasRequiredFields` flag. -/
def renderRequestType (className : String) (endpoint : EndpointDefinition) :
    String × Bool :=
  let pathType := renderParameterObject (endpoint.parameters.bind (·.path)) 1
  let queryType := renderParameterObject (endpoint.parameters.bind (·.query)) 1
  let headerType := renderParameterObject (endpoint.parameters.bind (·.header)) 1
  let props : List RequestProperty :=
    (match pathType with | some t => [makeProperty "path" t false] | none => []) ++
    (match queryType with | some t => [makeProperty "query" t true] | none => []) ++
    (match headerType with | some t => [makeProperty "headers" t true] | none => []) ++
    (match endpoint.body with
     | some b =>
       match b.schema with
       | some _ => [makeProperty "body" (schemaToTs b.schema 1) (!b.required)]
       | none => []
     | none => []) ++
    [makeProperty "signal" "AbortSignal" true]
  let hasRequiredFields := props.any (·.isRequired)
  let lines :=
    if props.isEmpty then ["  // No request parameters required."]
    else props.map (·.text)
  ("export interface " ++ className ++ "Request \x7b\n" ++
    String.intercalate "\n" lines ++ "\n\x7d",
   hasRequiredFields)

/-- Mirror of `pickSuccessResponse`: first declared response with a numeric
2xx status, else the first response. -/
def pickSuccessResponse (endpoint : EndpointDefinition) : Option ResponseDefinition :=
  match endpoint.responses with
  | none => none
  | some rs =>
    if rs.isEmpty then none
    else
      match rs.find? (fun r =>
        match r.status with
        | some (.num n) => decide (200 ≤ n ∧ n < 300)
        | _ => false) with
      | some r => some r
      | none => rs.head?

/-- Mirror of `renderResponseType`; returns the type alias text and the
success response's content type. -/
def renderResponseType (className : String) (endpoint : EndpointDefinition) :
    String × Option String :=
  let success := pickSuccessResponse endpoint
  let typeName := className ++ "Response"
  match success with
  | none => ("export type " ++ typeName ++ " = void;", none)
  | some r =>
    match r.schema with
    | none => ("export type " ++ typeName ++ " = void;", r.contentType)
    | some sch =>
      ("export type " ++ typeName ++ " = " ++ schemaToTs (some sch) 0 ++ ";",
       r.contentType)

/-- Mirror of `renderExecutorInterface`. -/
def renderExecutorInterface (className : String) (hasRequiredFields : Bool) : String :=
  let executorType :=
    if hasRequiredFields then
      "EndpointExecutor<" ++ className ++ "Request, " ++ className ++ "Response>"
    else
      "EndpointExecutor<" ++ className ++ "Request, " ++ className ++ "Response, false>"
  "export type " ++ className ++ "Executor = " ++ executorType ++ ";"

/-- Mirror of `renderClientClass`. -/
def renderClientClass (className : String) (endpoint : EndpointDefinition)
    (hasRequiredFields : Bool) (responseContentType : Option String) : String :=
  let paramSignature :=
    if hasRequiredFields then "request: " ++ className ++ "Request"
    else "request: " ++ className ++ "Request = \x7b\x7d as " ++ className ++ "Request"
  let specFields :=
    ["method: " ++ jsonQuote endpoint.method.str,
     "path: " ++ jsonQuote endpoint.path] ++
    (match endpoint.body with
     | some b => if b.required then ["bodyRequired: true"] else []
     | none => []) ++
    (match endpoint.body.bind (·.contentType) with
     | some ct => if ct ≠ "" then ["bodyContentType: " ++ jsonQuote ct] else []
     | none => []) ++
    (match responseContentType with
     | some rt => if rt ≠ "" then ["responseContentType: " ++ jsonQuote rt] else []
     | none => [])
  let specObject := "\x7b\n      " ++ String.intercalate ",\n      " specFields ++
    "\n    \x7d"
  let ctor := "  constructor(config: FetchClientConfig = \x7b\x7d) \x7b\n    super(config);\n  \x7d"
  let fetchMethod := "  async fetch(" ++ paramSignature ++
    ", init?: RequestInit): Promise<" ++ className ++ "Response> \x7b\n" ++
    "    return this.request<" ++ className ++ "Response>(\n      " ++ specObject ++
    ",\n      request,\n      init\n    );\n  \x7d"
  let docs :=
    (match endpoint.name with
     | some n => if n ≠ "" then [n] else []
     | none => []) ++
    (match endpoint.description with
     | some d => if d ≠ "" then [d] else []
     | none => [])
  let header := if docs.isEmpty then "" else "/** " ++ String.intercalate " - " docs ++ " */\n"
  header ++ "export class " ++ className ++ " extends BaseFetchClient implements " ++
    className ++ "Executor \x7b\n" ++ ctor ++ "\n\n" ++ fetchMethod ++ "\n\x7d"

/-- `GeneratedFile`. -/
structure GeneratedFile where
  filename : String
  content : String

/-- `GeneratedBundle`. -/
structure GeneratedBundle where
  entrypoint : String
  files : List GeneratedFile

/-- Mirror of `renderEndpointFile` (its config record is passed as the two
strings it carries). -/
def renderEndpointFile (endpoint : EndpointDefinition)
    (filename transportImportPath : String) : GeneratedFile :=
  let baseName := jsOrElse endpoint.name endpoint.id
  let className := toPascalCase baseName
  let request := renderRequestType className endpoint
  let response := renderResponseType className endpoint
  let executor := renderExecutorInterface className request.2
  let clientClass := renderClientClass className endpoint request.2 response.2
  let parts :=
    ["/**",
     " * Auto-generated for " ++ endpoint.method.str ++ " " ++ endpoint.path,
     " */",
     "",
     "import \x7b BaseFetchClient, type EndpointExecutor, type FetchClientConfig \x7d from \x27" ++
       transportImportPath ++ "\x27;",
     "",
     request.1,
     "",
     response.1,
     "",
     executor,
     "",
     clientClass,
     ""]
  { filename := filename, content := String.intercalate "\n" parts }

/-- Mirror of `renderTypesFile`. -/
def renderTypesFile (service : ServiceDefinition) : Option GeneratedFile :=
  let entries := service.types.getD []
  if entries.isEmpty then none
  else
    some
      { filename := "types.ts",
        content :=
          String.intercalate "\n"
            (["/**", " * Normalized component schemas.", " */", ""] ++
              (entries.map fun e =>
                ["export type " ++ toPascalCase e.1 ++ " = " ++
                  schemaToTs (some e.2) 0 ++ ";", ""]).flatten) }

/-! ## Bundle assembly (`generateClientSource`) -/

/-- `CodegenOptions`. -/
structure CodegenOptions where
  entryFileName : Option String := none
  fileExtension : Option String := none

/-- The static template literal of `renderTransportFile` (no interpolation;
reproduced verbatim). -/
def transportTemplate : String :=
  "/**\n" ++
  " * Shared runtime helpers that power the generated fetch client.\n" ++
  " */\n" ++
  "export type QueryArrayFormat = \x27repeat\x27 | \x27comma\x27;\n" ++
  "\n" ++
  "export interface FetchClientConfig \x7b\n" ++
  "  // Base URL that will be prefixed to every request path.\n" ++
  "  baseUrl?: string;\n" ++
  "  // Custom fetch implementation (pass polyfills when running outside the browser).\n" ++
  "  fetch?: typeof fetch;\n" ++
  "  // Headers merged into every request before it is dispatched.\n" ++
  "  defaultHeaders?: Record<string, string>;\n" ++
  "  // Controls how array values are serialized in the query string.\n" ++
  "  queryArrayFormat?: QueryArrayFormat;\n" ++
  "  // Lifecycle hook fired right before sending a request.\n" ++
  "  onRequest?: (ctx: RequestContext) => void | Promise<void>;\n" ++
  "  // Lifecycle hook fired after the response is received (ideal for logging or metrics).\n" ++
  "  onResponse?: (ctx: ResponseContext) => void | Promise<void>;\n" ++
  "\x7d\n" ++
  "\n" ++
  "export interface RequestContext \x7b\n" ++
  "  // Fully resolved URL including baseUrl, path parameters, and query string.\n" ++
  "  url: string;\n" ++
  "  method: string;\n" ++
  "  init: RequestInit;\n" ++
  "\x7d\n" ++
  "\n" ++
  "export interface ResponseContext extends RequestContext \x7b\n" ++
  "  status: number;\n" ++
  "  statusText: string;\n" ++
  "  data: unknown;\n" ++
  "\x7d\n" ++
  "\n" ++
  "export class HttpError extends Error \x7b\n" ++
  "  constructor(message: string, public readonly status: number, public readonly data: unknown) \x7b\n" ++
  "    super(message);\n" ++
  "    this.name = \x27HttpError\x27;\n" ++
  "  \x7d\n" ++
  "\x7d\n" ++
  "\n" ++
  "export interface EndpointSpec \x7b\n" ++
  "  // Metadata that mirrors the underlying OpenAPI operation.\n" ++
  "  method: string;\n" ++
  "  path: string;\n" ++
  "  bodyRequired?: boolean;\n" ++
  "  bodyContentType?: string;\n" ++
  "  responseContentType?: string;\n" ++
  "\x7d\n" ++
  "\n" ++
  "export interface EndpointRequestParts \x7b\n" ++
  "  path?: Record<string, string | number>;\n" ++
  "  query?: Record<string, unknown>;\n" ++
  "  headers?: Record<string, string>;\n" ++
  "  body?: unknown;\n" ++
  "  signal?: AbortSignal;\n" ++
  "\x7d\n" ++
  "\n" ++
  "// Generic executor signature implemented by generated client classes.\n" ++
  "export type EndpointExecutor<Request, Response, RequireRequest extends boolean = true> =\n" ++
  "  RequireRequest extends true\n" ++
  "    ? \x7b\n" ++
  "        fetch(request: Request, init?: RequestInit): Promise<Response>;\n" ++
  "      \x7d\n" ++
  "    : \x7b\n" ++
  "        fetch(request?: Request, init?: RequestInit): Promise<Response>;\n" ++
  "      \x7d;\n" ++
  "\n" ++
  "/**\n" ++
  " * Serializes query parameters into a query string.\n" ++
  " */\n" ++
  "function serializeQuery(params: Record<string, unknown> | undefined, arrayFormat: QueryArrayFormat = \x27repeat\x27) \x7b\n" ++
  "  if (!params) return \x27\x27;\n" ++
  "  const parts: string[] = [];\n" ++
  "  const append = (key: string, value: unknown) => \x7b\n" ++
  "    parts.push(encodeURIComponent(key) + \x27=\x27 + encodeURIComponent(String(value)));\n" ++
  "  \x7d;\n" ++
  "\n" ++
  "  for (const [key, value] of Object.entries(params)) \x7b\n" ++
  "    if (value === undefined || value === null) continue;\n" ++
  "\n" ++
  "    if (Array.isArray(value)) \x7b\n" ++
  "      if (arrayFormat === \x27repeat\x27) \x7b\n" ++
  "        for (const item of value) append(key, item);\n" ++
  "      \x7d else \x7b\n" ++
  "        append(key, value.join(\x27,\x27));\n" ++
  "      \x7d\n" ++
  "      continue;\n" ++
  "    \x7d\n" ++
  "\n" ++
  "    if (typeof value === \x27object\x27) \x7b\n" ++
  "      append(key, JSON.stringify(value));\n" ++
  "      continue;\n" ++
  "    \x7d\n" ++
  "\n" ++
  "    append(key, value);\n" ++
  "  \x7d\n" ++
  "\n" ++
  "  return parts.length ? \x27?\x27 + parts.join(\x27&\x27) : \x27\x27;\n" ++
  "\x7d\n" ++
  "\n" ++
  "/**\n" ++
  " * Applies path parameters to templated routes such as /users/\x7bid\x7d.\n" ++
  " */\n" ++
  "function applyPathParams(path: string, params?: Record<string, string | number>) \x7b\n" ++
  "  if (!params) return path;\n" ++
  "  return path.replace(/\x7b(.*?)\x7d/g, (_, key: string) => \x7b\n" ++
  "    const value = params[key];\n" ++
  "    return encodeURIComponent(value === undefined ? \x27\x27 : String(value));\n" ++
  "  \x7d);\n" ++
  "\x7d\n" ++
  "\n" ++
  "/**\n" ++
  " * Normalizes the various HeadersInit shapes into a plain object for merging.\n" ++
  " */\n" ++
  "function headersToRecord(input?: HeadersInit): Record<string, string> \x7b\n" ++
  "  if (!input) return \x7b\x7d;\n" ++
  "  if (input instanceof Headers) \x7b\n" ++
  "    const out: Record<string, string> = \x7b\x7d;\n" ++
  "    input.forEach((value, key) => \x7b\n" ++
  "      out[key] = value;\n" ++
  "    \x7d);\n" ++
  "    return out;\n" ++
  "  \x7d\n" ++
  "  if (Array.isArray(input)) \x7b\n" ++
  "    const out: Record<string, string> = \x7b\x7d;\n" ++
  "    for (const [key, value] of input) \x7b\n" ++
  "      out[key] = value;\n" ++
  "    \x7d\n" ++
  "    return out;\n" ++
  "  \x7d\n" ++
  "  return \x7b ...input \x7d as Record<string, string>;\n" ++
  "\x7d\n" ++
  "\n" ++
  "/**\n" ++
  " * Base class used by generated clients to encapsulate shared request/response plumbing.\n" ++
  " */\n" ++
  "export class BaseFetchClient \x7b\n" ++
  "  constructor(protected readonly config: FetchClientConfig = \x7b\x7d) \x7b\x7d\n" ++
  "\n" ++
  "  /**\n" ++
  "   * Builds the final request URL from the endpoint spec and caller input.\n" ++
  "   */\n" ++
  "  protected buildUrl(spec: EndpointSpec, request: EndpointRequestParts | undefined) \x7b\n" ++
  "    const baseUrl = this.config.baseUrl?.replace(/[/]$/, \x27\x27) || \x27\x27;\n" ++
  "    const path = applyPathParams(spec.path, request?.path);\n" ++
  "    const qs = serializeQuery(request?.query, this.config.queryArrayFormat);\n" ++
  "    return baseUrl + path + qs;\n" ++
  "  \x7d\n" ++
  "\n" ++
  "  /**\n" ++
  "   * Performs the fetch call and handles headers, body, and response decoding.\n" ++
  "   */\n" ++
  "  protected async request<Response>(\n" ++
  "    spec: EndpointSpec,\n" ++
  "    request: EndpointRequestParts | undefined,\n" ++
  "    init?: RequestInit\n" ++
  "  ): Promise<Response> \x7b\n" ++
  "    const fetchImpl = (this.config.fetch ?? globalThis.fetch) as typeof fetch | undefined;\n" ++
  "    if (typeof fetchImpl !== \x27function\x27) \x7b\n" ++
  "      throw new Error(\x27No fetch implementation available. Provide FetchClientConfig.fetch in non-browser environments.\x27);\n" ++
  "    \x7d\n" ++
  "\n" ++
  "    if (spec.bodyRequired && (request?.body === undefined || request.body === null)) \x7b\n" ++
  "      throw new Error(\x27Request body is required for this endpoint.\x27);\n" ++
  "    \x7d\n" ++
  "\n" ++
  "    const url = this.buildUrl(spec, request);\n" ++
  "    const headers: Record<string, string> = \x7b\n" ++
  "      ...(this.config.defaultHeaders ?? \x7b\x7d),\n" ++
  "      ...(request?.headers ?? \x7b\x7d),\n" ++
  "      ...headersToRecord(init?.headers),\n" ++
  "    \x7d;\n" ++
  "\n" ++
  "    const method = spec.method.toUpperCase();\n" ++
  "    const bodySource = init?.body ?? request?.body;\n" ++
  "    let finalBody: BodyInit | undefined;\n" ++
  "\n" ++
  "    if (bodySource !== undefined && bodySource !== null && ![\x27GET\x27, \x27HEAD\x27].includes(method)) \x7b\n" ++
  "      if (typeof Blob !== \x27undefined\x27 && bodySource instanceof Blob) \x7b\n" ++
  "        finalBody = bodySource;\n" ++
  "      \x7d else if (typeof FormData !== \x27undefined\x27 && bodySource instanceof FormData) \x7b\n" ++
  "        finalBody = bodySource;\n" ++
  "      \x7d else if (typeof URLSearchParams !== \x27undefined\x27 && bodySource instanceof URLSearchParams) \x7b\n" ++
  "        finalBody = bodySource;\n" ++
  "      \x7d else if (typeof ArrayBuffer !== \x27undefined\x27 && bodySource instanceof ArrayBuffer) \x7b\n" ++
  "        finalBody = bodySource;\n" ++
  "      \x7d else if (typeof ReadableStream !== \x27undefined\x27 && bodySource instanceof ReadableStream) \x7b\n" ++
  "        // ReadableStream may need a polyfill in Node.js; treat it as BodyInit when available.\n" ++
  "        finalBody = bodySource as BodyInit;\n" ++
  "      \x7d else if (typeof bodySource === \x27string\x27) \x7b\n" ++
  "        finalBody = bodySource;\n" ++
  "      \x7d else \x7b\n" ++
  "        const declared = spec.bodyContentType || headers[\x27Content-Type\x27] || headers[\x27content-type\x27];\n" ++
  "        if (!declared || declared.includes(\x27application/json\x27)) \x7b\n" ++
  "          headers[\x27Content-Type\x27] = \x27application/json\x27;\n" ++
  "          finalBody = JSON.stringify(bodySource);\n" ++
  "        \x7d else if (declared.includes(\x27application/x-www-form-urlencoded\x27)) \x7b\n" ++
  "          headers[\x27Content-Type\x27] = \x27application/x-www-form-urlencoded\x27;\n" ++
  "          const params = new URLSearchParams();\n" ++
  "          for (const [key, value] of Object.entries(bodySource as Record<string, unknown>)) \x7b\n" ++
  "            if (value !== undefined && value !== null) params.append(key, String(value));\n" ++
  "          \x7d\n" ++
  "          finalBody = params as any;\n" ++
  "        \x7d else \x7b\n" ++
  "          finalBody = String(bodySource);\n" ++
  "        \x7d\n" ++
  "      \x7d\n" ++
  "    \x7d\n" ++
  "\n" ++
  "    const finalInit: RequestInit = \x7b\n" ++
  "      ...init,\n" ++
  "      method,\n" ++
  "      headers,\n" ++
  "      body: [\x27GET\x27, \x27HEAD\x27].includes(method) ? undefined : finalBody,\n" ++
  "      signal: request?.signal ?? init?.signal,\n" ++
  "    \x7d;\n" ++
  "\n" ++
  "    const requestCtx: RequestContext = \x7b url, method, init: finalInit \x7d;\n" ++
  "    if (this.config.onRequest) await this.config.onRequest(requestCtx);\n" ++
  "\n" ++
  "    const response = await fetchImpl(url, finalInit);\n" ++
  "\n" ++
  "    const declaredResponseType = spec.responseContentType;\n" ++
  "    let data: unknown;\n" ++
  "    try \x7b\n" ++
  "      if (response.status === 204 || method === \x27HEAD\x27) \x7b\n" ++
  "        data = undefined;\n" ++
  "      \x7d else \x7b\n" ++
  "        const headerType = response.headers.get(\x27content-type\x27) || \x27\x27;\n" ++
  "        const contentType = declaredResponseType || headerType;\n" ++
  "        if (contentType.includes(\x27application/json\x27)) \x7b\n" ++
  "          data = await response.json();\n" ++
  "        \x7d else if (contentType.startsWith(\x27text/\x27)) \x7b\n" ++
  "          data = await response.text();\n" ++
  "        \x7d else \x7b\n" ++
  "          data = await response.arrayBuffer();\n" ++
  "        \x7d\n" ++
  "      \x7d\n" ++
  "    \x7d catch (err) \x7b\n" ++
  "      data = undefined;\n" ++
  "    \x7d\n" ++
  "\n" ++
  "    const responseCtx: ResponseContext = \x7b\n" ++
  "      url,\n" ++
  "      method,\n" ++
  "      init: finalInit,\n" ++
  "      status: response.status,\n" ++
  "      statusText: response.statusText,\n" ++
  "      data,\n" ++
  "    \x7d;\n" ++
  "    if (this.config.onResponse) await this.config.onResponse(responseCtx);\n" ++
  "\n" ++
  "    if (!response.ok) \x7b\n" ++
  "      throw new HttpError(\x27HTTP \x27 + response.status + \x27 \x27 + response.statusText, response.status, data);\n" ++
  "    \x7d\n" ++
  "\n" ++
  "    return data as Response;\n" ++
  "  \x7d\n" ++
  "\x7d\n" ++
  ""

/-- Mirror of `renderTransportFile`. -/
def renderTransportFile : GeneratedFile :=
  { filename := "transport.ts", content := transportTemplate }

/-- The per-endpoint `(endpoint, segments)` pairs the generator derives
before filename assignment. -/
def endpointSegmentsOf (service : ServiceDefinition) :
    List (EndpointDefinition × List String) :=
  service.endpoints.enum.map fun p =>
    (p.2, extractPathSegments p.2.path (jsOrElse p.2.name p.2.id) p.1)

/-- The filename assigned to one endpoint, given the joined segment keys of
every endpoint (`pathUsageCounts`): the method is appended when the key is
shared. -/
def endpointFilenameFor (allKeys : List String) (endpoint : EndpointDefinition)
    (segments : List String) : String :=
  let key := String.intercalate "/" segments
  let occurrence := allKeys.count key
  let dirSegments := if segments.length > 1 then segments.dropLast else segments
  let baseSegment := (segments.getLast?).getD "endpoint"
  let fileBase :=
    if occurrence > 1 then baseSegment ++ "-" ++ endpoint.method.lower
    else baseSegment
  posixJoin (dirSegments ++ [fileBase ++ ".ts"])

/-- The filenames of the per-endpoint files, in endpoint order. -/
def endpointFilenames (service : ServiceDefinition) : List String :=
  let infos := endpointSegmentsOf service
  let allKeys := infos.map fun i => String.intercalate "/" i.2
  infos.map fun i => endpointFilenameFor allKeys i.1 i.2

/-- The re-export line the entry file carries for a generated file. -/
def exportLineFor (filename : String) : String :=
  "export * from \x27./" ++ stripSuffixStr filename ".ts" ++ "\x27;"

/-- Mirror of `generateClientSource`. -/
def generateClientSource (service : ServiceDefinition)
    (options : Option CodegenOptions) : GeneratedBundle :=
  let entryFileName := jsOrElse (options.bind (·.entryFileName)) "index.ts"
  let extension := jsOrElse (options.bind (·.fileExtension)) "ts"
  let transportFile := renderTransportFile
  let infos := endpointSegmentsOf service
  let allKeys := infos.map fun i => String.intercalate "/" i.2
  let endpointFiles := infos.map fun i =>
    let filename := endpointFilenameFor allKeys i.1 i.2
    renderEndpointFile i.1 filename
      (computeRelativeModulePath filename transportFile.filename)
  let exportLines := endpointFiles.map fun file => exportLineFor file.filename
  let files := [transportFile] ++ endpointFiles
  let withTypes :=
    match renderTypesFile service with
    | some tf =>
      (files.take 1 ++ [tf] ++ files.drop 1, exportLineFor tf.filename :: exportLines)
    | none => (files, exportLines)
  let exportLines := exportLineFor transportFile.filename :: withTypes.2
  let entryFile : GeneratedFile :=
    { filename :=
        if ("." ++ extension).toList.isSuffixOf entryFileName.toList then entryFileName
        else entryFileName ++ "." ++ extension,
      content := String.intercalate "\n" exportLines ++ "\n" }
  { entrypoint := entryFile.filename, files := [entryFile] ++ withTypes.1 }

/-! ## The invoke stage (src/stage/extend/invoke/index.ts)

Adapters are modelled as data: a type tag, a `canHandle` predicate, and the
results their `fetch`/`parse` would produce (failures as `Except.error`).
`execute` itself — adapter resolution, first-match selection, the per-source
loop with `continueOnError` — is embedded. -/

/-- `InvokeSourceConfig`; `request`/`document`/`options` are consumed only
inside the adapters, which are oracles here. -/
structure InvokeSourceCfg where
  type : String
  name : Option String := none
  metadata : Option (List (String × JSValue)) := none

/-- `InvokeSourceAdapter` as data. -/
structure InvokeAdapter where
  type : String
  canHandle : InvokeSourceCfg → Bool
  fetchR : InvokeSourceCfg → Except String JSValue
  parseR : JSValue → InvokeSourceCfg → Except String ServiceDefinition

/-- `UnifiedInvokeDocument`. -/
structure UnifiedInvokeDocument where
  type : String
  name : Option String := none
  rawDocument : JSValue
  serviceDefinition : ServiceDefinition
  metadata : Option (List (String × JSValue)) := none
  adapter : String

/-- `InvokeSourceError` (the original thrown `cause` object carries no
logic and is dropped). -/
structure InvokeSourceError where
  type : String
  name : Option String := none
  message : String

/-- `InvokeStageResult`. -/
structure InvokeStageResult where
  documents : List UnifiedInvokeDocument
  errors : Option (List InvokeSourceError) := none

/-- `InvokeStageConfig`. -/
structure InvokeStageConfigM where
  sources : List InvokeSourceCfg
  adapters : Option (List InvokeAdapter) := none
  continueOnError : Option Bool := none
  skip : Bool := false

/-- `findAdapter`: the first registered adapter whose `canHandle` accepts
the source. -/
def findAdapter (adapters : List InvokeAdapter) (source : InvokeSourceCfg) :
    Option InvokeAdapter :=
  adapters.find? fun a => a.canHandle source

/-- `Map.set` keyed by adapter type: replace in place, else append (JS map
insertion-order semantics). -/
def setKeyedAdapter : List InvokeAdapter → InvokeAdapter → List InvokeAdapter
  | [], a => [a]
  | b :: rest, a =>
    if b.type = a.type then a :: rest else b :: setKeyedAdapter rest a

/-- `resolveAdapters`: defaults unless custom adapters are supplied, which
override defaults of the same type in a type-keyed insertion-ordered map. -/
def resolveAdapters (defaults : List InvokeAdapter)
    (custom : Option (List InvokeAdapter)) : List InvokeAdapter :=
  match custom with
  | none => defaults
  | some cs =>
    if cs.isEmpty then defaults
    else (defaults ++ cs).foldl setKeyedAdapter []

/-- `wrapError`. -/
def wrapInvokeError (type message : String) : String :=
  "[InvokeStage] Adapter \"" ++ type ++ "\" failed: " ++ message

/-- One iteration of the per-source loop of `InvokeStage.execute`: pick the
first `canHandle` adapter; absence or a fetch/parse failure becomes a
recorded source error (or a thrown stage error when `continueOnError` is
off). A parse failure does not fall through to later adapters. -/
def processSource (adapters : List InvokeAdapter) (continueOnError : Bool)
    (acc : List UnifiedInvokeDocument × List InvokeSourceError)
    (source : InvokeSourceCfg) :
    Except String (List UnifiedInvokeDocument × List InvokeSourceError) :=
  match findAdapter adapters source with
  | none =>
    let message := "No adapter registered for source type \"" ++ source.type ++ "\"."
    if !continueOnError then .error (wrapInvokeError source.type message)
    else .ok (acc.1, acc.2 ++ [{ type := source.type, name := source.name, message := message }])
  | some adapter =>
    match (adapter.fetchR source).bind
        (fun raw => (adapter.parseR raw source).map fun sd => (raw, sd)) with
    | .ok rawSd =>
      .ok (acc.1 ++
        [{ type := adapter.type,
           name := some (source.name.getD adapter.type),
           rawDocument := rawSd.1,
           serviceDefinition := rawSd.2,
           metadata := source.metadata,
           adapter := adapter.type }],
        acc.2)
    | .error message =>
      if !continueOnError then .error (wrapInvokeError adapter.type message)
      else .ok (acc.1, acc.2 ++ [{ type := source.type, name := source.name, message := message }])

/- `wrapError` for the no-adapter case passes `source.type`; for the failing
adapter case it passes `adapter.type`, matching the source. -/

/-- Mirror of `InvokeStage.execute` (stage throw = `Except.error`). -/
def executeInvoke (defaultAdapters : List InvokeAdapter)
    (config : Option InvokeStageConfigM) :
    Except String (Option InvokeStageResult) :=
  match config with
  | none => .ok none
  | some cfg =>
    if cfg.skip then .ok none
    else if cfg.sources.isEmpty then
      .error "[InvokeStage] At least one source must be provided."
    else do
      let adapters := resolveAdapters defaultAdapters cfg.adapters
      let continueOnError := cfg.continueOnError.getD true
      let res ← cfg.sources.foldlM (processSource adapters continueOnError) ([], [])
      pure (some
        { documents := res.1,
          errors := if res.2.isEmpty then none else some res.2 })

/-! ## Primary-document selection (src/pipeline/index.ts) -/

/-- The per-source match used by `selectPrimaryDocument`:
`doc.name === (source.name ?? source.type) || doc.type === source.type`. -/
def docMatchesSource (doc : UnifiedInvokeDocument) (source : InvokeSourceCfg) : Bool :=
  let key := source.name.getD source.type
  (match doc.name with
   | some n => n = key
   | none => false) || doc.type = source.type

/-- `doc.metadata?.primary === true`. -/
def isPrimaryDoc (doc : UnifiedInvokeDocument) : Bool :=
  match doc.metadata with
  | some m =>
    match lookupField m "primary" with
    | some (.bool true) => true
    | _ => false
  | none => false

/-- Mirror of `selectPrimaryDocument`. -/
def selectPrimaryDocument (result : Option InvokeStageResult)
    (config : Option InvokeStageConfigM) : Option UnifiedInvokeDocument :=
  match result with
  | none => none
  | some r =>
    if r.documents.isEmpty then none
    else
      let fromSources :=
        match config with
        | some cfg =>
          if cfg.sources.isEmpty then none
          else
            cfg.sources.findSome? fun source =>
              r.documents.find? fun doc => docMatchesSource doc source
        | none => none
      match fromSources with
      | some d => some d
      | none =>
        match r.documents.find? isPrimaryDoc with
        | some d => some d
        | none => r.documents.head?

/-- The run-context fields the primary-selection step of
`DocSyncPipeline.run` reads and writes. -/
structure PrimarySelectionCtx where
  serviceDefinition : Option ServiceDefinition := none
  rawDocument : Option JSValue := none
  parserName : Option String := none

/-- Mirror of the post-invoke selection step in `DocSyncPipeline.run`: only
when the context still lacks a service definition is a primary document
selected and copied into the context. -/
def applyPrimarySelection (ctx : PrimarySelectionCtx)
    (invokeResult : Option InvokeStageResult)
    (invokeConfig : Option InvokeStageConfigM) : PrimarySelectionCtx :=
  if ctx.serviceDefinition.isSome then ctx
  else
    match selectPrimaryDocument invokeResult invokeConfig with
    | some primaryDocument =>
      { serviceDefinition := some primaryDocument.serviceDefinition,
        rawDocument :=
          if ctx.rawDocument.isNone then some primaryDocument.rawDocument
          else ctx.rawDocument,
        parserName :=
          if ctx.parserName.isNone then some primaryDocument.adapter
          else ctx.parserName }
    | none => ctx

/-! ## The normalizer stage (src/stage/extend/normalizer-stage.ts)

To make the clone-then-mutate discipline observable, service definitions
live in an addressed store (`List ServiceDefinition`); `cloneService`
(structuredClone / JSON round-trip, i.e. a deep copy sharing no structure)
allocates a fresh cell holding an equal value, and every transform and
extension write targets the working cell. A transform that mutates its
argument in place and one that returns a replacement both leave the working
value at `t w`, which the store records by writing the cell. -/

/-- An "extension" normalizer: converts an auxiliary payload into a named
schema entry. -/
structure NormalizerExtension where
  name : String
  normalize : JSValue → Option Schema

/-- One auxiliary input payload with an optional explicit key. -/
structure NormalizerInput where
  key : Option String := none
  payload : JSValue

/-- Key-preserving assignment into the `types` record (later writes to the
same key override in place). -/
def setAssoc : List (String × Schema) → String → Schema → List (String × Schema)
  | [], key, v => [(key, v)]
  | (k, w) :: rest, key, v =>
    if k = key then (k, v) :: rest else (k, w) :: setAssoc rest key v

/-- The extension phase of `NormalizerStage.execute`: fold every
input × extension pair over the collected `types` record, tracking whether
anything changed. -/
def collectExtensionTypes (extensions : List NormalizerExtension)
    (inputs : List NormalizerInput) (init : List (String × Schema)) :
    List (String × Schema) × Bool :=
  inputs.enum.foldl
    (fun acc p =>
      extensions.enum.foldl
        (fun acc2 q =>
          match q.2.normalize p.2.payload with
          | some schema =>
            let key := p.2.key.getD (q.2.name ++ "-" ++ toString p.1 ++ "-" ++ toString q.1)
            (setAssoc acc2.1 key schema, true)
          | none => acc2)
        acc)
    (init, false)

/-- The transform loop of `NormalizerStage.execute`: each transform reads
the working cell and writes back its result (an in-place mutation and a
returned replacement both leave the working value at `t w`). -/
def applyTransforms (workingAddr : Nat)
    (transforms : List (ServiceDefinition → ServiceDefinition))
    (st : List ServiceDefinition) : List ServiceDefinition :=
  transforms.foldl
    (fun st t =>
      match st[workingAddr]? with
      | some w => st.set workingAddr (t w)
      | none => st)
    st

/-- The extension phase of `NormalizerStage.execute` over the store: when
both extensions and inputs are present and some schema was produced, the
working cell's `types` record is replaced by the collected one. -/
def applyExtensionPhase (workingAddr : Nat)
    (extensions : List NormalizerExtension) (inputs : List NormalizerInput)
    (st : List ServiceDefinition) : List ServiceDefinition :=
  if !extensions.isEmpty && !inputs.isEmpty then
    match st[workingAddr]? with
    | some w =>
      if (collectExtensionTypes extensions inputs (w.types.getD [])).2 then
        st.set workingAddr
          { w with types := some (collectExtensionTypes extensions inputs (w.types.getD [])).1 }
      else st
    | none => st
  else st

/-- Mirror of `NormalizerStage.execute` over the addressed store: clone the
base service into a fresh cell, apply the transforms to the working cell,
then merge extension-produced type entries into it. Returns the final store
and the working address (`none` when there was no base service). -/
def normalizerExecute (store : List ServiceDefinition) (baseAddr : Nat)
    (transforms : List (ServiceDefinition → ServiceDefinition))
    (extensions : List NormalizerExtension) (inputs : List NormalizerInput) :
    List ServiceDefinition × Option Nat :=
  match store[baseAddr]? with
  | none => (store, none)
  | some base =>
    let workingAddr := store.length
    (applyExtensionPhase workingAddr extensions inputs
      (applyTransforms workingAddr transforms (store ++ [base])),
     some workingAddr)

/-! ## Statement helpers -/

/-- Substring scan over character lists. -/
def listInfix (needle : List Char) : List Char → Bool
  | [] => needle.isEmpty
  | h :: t => needle.isPrefixOf (h :: t) || listInfix needle t

/-- "`hay` contains the literal text `needle`". -/
def strContains (hay needle : String) : Bool :=
  listInfix needle.toList hay.toList

/-- The `kind` the converter's `switch` assigns to a resolved primitive
`type` string — used to state what "kind derived from the type member"
means. -/
def kindForTypeStr (s : String) : String :=
  if s = "object" then "object"
  else if s = "array" then "array"
  else
    match primKindOfStr s with
    | some k => k.str
    | none => "unknown"

/-- Whether a string contains a slash — endpoint files always live in a
subdirectory, the bundle's top-level files never do. -/
def hasSlash (s : String) : Bool :=
  s.data.any (fun c => c = '/')

/-! # Theorems

Helper lemmas first, then one theorem per claim (with its witness or
counterexample), in claim order. -/

/-- C7: merging a single-document list under the `auto` strategy returns
that document unchanged — `auto` detects the `first` strategy for a
one-element list, which yields document 0. -/
theorem c7_merge_auto_singleton_identity (doc : JSValue) :
    mergeDocuments [doc] (some .auto) = .ok doc := by
  simp [mergeDocuments, detectMergeStrategy]

/-- C8: `mergeDocuments` throws on an empty document list; it throws when
`swagger`/`openapi` is explicitly requested but some document lacks the
OpenAPI/Swagger shape; and under the remaining built-in strategies
(`first`, `json-array`, `auto`) every non-empty list merges without
throwing. -/
theorem c8_merge_failfast_and_totality :
    (∀ strategy, mergeDocuments [] strategy = .error "No documents fetched to merge.") ∧
    (∀ documents : List JSValue, documents ≠ [] →
      (∃ d ∈ documents, isSwaggerLike d = false) →
      mergeDocuments documents (some .swagger) =
        .error "Merge strategy swagger requested but not all documents appear to be OpenAPI/Swagger." ∧
      mergeDocuments documents (some .openapi) =
        .error "Merge strategy swagger requested but not all documents appear to be OpenAPI/Swagger.") ∧
    (∀ documents : List JSValue, documents ≠ [] →
      (∃ v, mergeDocuments documents (some .first) = .ok v) ∧
      (∃ v, mergeDocuments documents (some .jsonArray) = .ok v) ∧
      (∃ v, mergeDocuments documents (some .auto) = .ok v)) := by
  refine ⟨fun _ => rfl, ?_, ?_⟩
  · intro documents hne hex
    obtain ⟨d, hd, hdfalse⟩ := hex
    rcases documents with _ | ⟨d0, rest⟩
    · exact absurd rfl hne
    · have hlt : ((d0 :: rest).filter isSwaggerLike).length < (d0 :: rest).length :=
        List.length_filter_lt_length_iff_exists.mpr ⟨d, hd, by simp [hdfalse]⟩
      have hcond : ((d0 :: rest).filter isSwaggerLike).length = 0 ∨
          ((d0 :: rest).filter isSwaggerLike).length ≠ (d0 :: rest).length :=
        Or.inr (Nat.ne_of_lt hlt)
      refine ⟨?_, ?_⟩ <;> (simp only [mergeDocuments]; rw [if_pos hcond])
  · intro documents hne
    rcases documents with _ | ⟨d0, rest⟩
    · exact absurd rfl hne
    refine ⟨⟨d0, rfl⟩, ⟨.arr (d0 :: rest), rfl⟩, ?_⟩
    by_cases h1 : (d0 :: rest).length = 1
    · exact ⟨d0, by simp only [mergeDocuments, detectMergeStrategy]; rw [if_pos h1]⟩
    · by_cases h2 : (d0 :: rest).all isSwaggerLike
      · have hall : ∀ a ∈ d0 :: rest, isSwaggerLike a = true := by
          simpa [List.all_eq_true] using h2
        have hfilter : (d0 :: rest).filter isSwaggerLike = d0 :: rest :=
          List.filter_eq_self.mpr hall
        refine ⟨mergeSwaggerDocuments ((d0 :: rest).filter isSwaggerLike), ?_⟩
        simp only [mergeDocuments, detectMergeStrategy]
        rw [if_neg h1, if_pos h2, if_neg]
        rw [hfilter]
        simp
      · refine ⟨.arr (d0 :: rest), ?_⟩
        simp only [mergeDocuments, detectMergeStrategy]
        rw [if_neg h1, if_neg h2]

/-- C8 witness: each conjunct exercised at a concrete input. -/
theorem c8_witness :
    mergeDocuments [] (some .first) = .error "No documents fetched to merge." ∧
    mergeDocuments [.null, .obj [("paths", .obj [])]] (some .swagger) =
      .error "Merge strategy swagger requested but not all documents appear to be OpenAPI/Swagger." ∧
    (∃ v, mergeDocuments [.null, .bool true] (some .auto) = .ok v) := by
  refine ⟨c8_merge_failfast_and_totality.1 _, ?_, ?_⟩
  · exact (c8_merge_failfast_and_totality.2.1 _ (by simp) ⟨.null, by simp, rfl⟩).1
  · exact (c8_merge_failfast_and_totality.2.2 _ (by simp)).2.2

/-- C9: when the bootstrap discovery request succeeds but `resolveRequests`
throws, `fetchApiDocumentation` fails with that same error (so it cannot
return any document, empty or otherwise). -/
theorem c9_discovery_resolve_error_surfaced
    (env : FetchEnv) (disc : DocSourceSingle)
    (resolve : JSValue → Except String ResolveOutcome)
    (ms : Option MergeStrategy) (entry : JSValue) (e : String)
    (hFetch : env.fetchSingle disc = .ok entry)
    (hResolve : resolve entry = .error e) :
    fetchApiDocumentation env (.discovery disc resolve ms) = .error e := by
  simp [fetchApiDocumentation, hFetch, hResolve, bind, Except.bind]

/-- C9 witness: a concrete oracle whose resolver throws. -/
theorem c9_witness :
    fetchApiDocumentation ⟨fun _ => .ok .null⟩
      (.discovery (.urlStr "https://registry.example/catalog")
        (fun _ => .error "resolveRequests exploded") none) =
      .error "resolveRequests exploded" :=
  c9_discovery_resolve_error_surfaced _ _ _ _ _ _ rfl rfl

/-- C6: with documents available and no prior service definition, the
pipeline prefers, in order: the first document matching a configured source
(sources scanned in declaration order), then the first document whose
metadata marks `primary: true`, then the first parsed document — and the
run-context step installs exactly the selected document's service
definition. The first-match searches are expressed with
`findSome?`/`find?` over the code's own predicates. -/
theorem c6_primary_document_selection
    (result : InvokeStageResult) (cfg : InvokeStageConfigM)
    (hne : result.documents ≠ []) :
    (∀ d,
      (cfg.sources.findSome? fun s =>
        result.documents.find? fun doc => docMatchesSource doc s) = some d →
      selectPrimaryDocument (some result) (some cfg) = some d) ∧
    ((cfg.sources.findSome? fun s =>
        result.documents.find? fun doc => docMatchesSource doc s) = none →
      ∀ d, result.documents.find? isPrimaryDoc = some d →
        selectPrimaryDocument (some result) (some cfg) = some d) ∧
    ((cfg.sources.findSome? fun s =>
        result.documents.find? fun doc => docMatchesSource doc s) = none →
      result.documents.find? isPrimaryDoc = none →
      selectPrimaryDocument (some result) (some cfg) = result.documents.head?) ∧
    (∀ ctx : PrimarySelectionCtx, ctx.serviceDefinition = none →
      (applyPrimarySelection ctx (some result) (some cfg)).serviceDefinition =
        (selectPrimaryDocument (some result) (some cfg)).map (·.serviceDefinition)) := by
  have hie : result.documents.isEmpty = false := by
    cases h : result.documents with
    | nil => exact absurd h hne
    | cons a t => rfl
  refine ⟨?_, ?_, ?_, ?_⟩
  · intro d hd
    by_cases hs : cfg.sources.isEmpty
    · rw [List.isEmpty_iff.mp hs] at hd
      simp at hd
    · simp only [selectPrimaryDocument, hie, hs, hd]
      rfl
  · intro hnone d hd
    by_cases hs : cfg.sources.isEmpty <;>
      simp only [selectPrimaryDocument, hie, hs, hnone, hd] <;> rfl
  · intro hnone hp
    by_cases hs : cfg.sources.isEmpty <;>
      simp only [selectPrimaryDocument, hie, hs, hnone, hp] <;> rfl
  · intro ctx hctx
    have hns : ctx.serviceDefinition.isSome = false := by rw [hctx]; rfl
    cases hsel : selectPrimaryDocument (some result) (some cfg) <;>
      simp [applyPrimarySelection, hns, hsel, hctx]

/-- A service definition with no endpoints, used by several witnesses. -/
def svcEmpty : ServiceDefinition :=
  { endpoints := [] }

/-- Witness documents and configuration for C6. -/
def docW1 : UnifiedInvokeDocument :=
  { type := "swagger", name := some "alpha", rawDocument := .null,
    serviceDefinition := svcEmpty, adapter := "swagger" }

/-- Second witness document; its `type` matches the configured source. -/
def docW2 : UnifiedInvokeDocument :=
  { type := "postman", name := some "beta", rawDocument := .null,
    serviceDefinition := svcEmpty, adapter := "postman" }

/-- C6 witness: the configured `postman` source selects the second parsed
document by type match even though another document parsed first. -/
theorem c6_witness :
    selectPrimaryDocument
      (some { documents := [docW1, docW2] })
      (some { sources := [{ type := "postman" }] }) = some docW2 :=
  (c6_primary_document_selection
    { documents := [docW1, docW2] } { sources := [{ type := "postman" }] }
    (by simp)).1 docW2 rfl

/-- An adapter that accepts the C1 source but whose parse throws. -/
def advA : InvokeAdapter :=
  { type := "a", canHandle := fun _ => true,
    fetchR := fun _ => .ok .null,
    parseR := fun _ _ => .error "A cannot parse" }

/-- A later adapter that also accepts the source and parses successfully. -/
def advB : InvokeAdapter :=
  { type := "b", canHandle := fun _ => true,
    fetchR := fun _ => .ok .null,
    parseR := fun _ _ => .ok svcEmpty }

/-- The C1 source configuration. -/
def srcC1 : InvokeSourceCfg :=
  { type := "a" }

/-- C1 counterexample: both adapters accept the source, the first one's
parse throws and the second would succeed — yet the invoke stage records a
source error and parses nothing, instead of falling through to the second
adapter as the claim states. -/
theorem c1_counterexample :
    executeInvoke [advA, advB] (some { sources := [srcC1] }) =
      .ok (some
        { documents := [],
          errors := some [{ type := "a", name := none, message := "A cannot parse" }] }) ∧
    advB.canHandle srcC1 = true ∧
    advB.fetchR srcC1 = .ok .null ∧
    advB.parseR .null srcC1 = .ok svcEmpty :=
  ⟨rfl, rfl, rfl, rfl⟩

/-- C1 amended: the invoke stage commits to the first adapter whose
`canHandle` accepts the source; if that adapter's fetch-then-parse fails,
the source fails right there — recorded as a source error under
`continueOnError` and thrown as a wrapped stage error otherwise — without
any later adapter being consulted. -/
theorem c1_first_adapter_no_fallthrough
    (adapters : List InvokeAdapter) (source : InvokeSourceCfg) :
    (∀ a, findAdapter adapters source = some a →
      a.canHandle source = true ∧
      ∃ pre post, adapters = pre ++ a :: post ∧
        ∀ b ∈ pre, b.canHandle source = false) ∧
    (∀ a msg, findAdapter adapters source = some a →
      ((a.fetchR source).bind fun raw =>
        (a.parseR raw source).map fun sd => (raw, sd)) = .error msg →
      ∀ acc,
        processSource adapters true acc source =
          .ok (acc.1, acc.2 ++
            [{ type := source.type, name := source.name, message := msg }]) ∧
        processSource adapters false acc source =
          .error (wrapInvokeError a.type msg)) := by
  constructor
  · intro a ha
    have h := List.find?_eq_some.mp ha
    refine ⟨h.1, ?_⟩
    obtain ⟨pre, post, hsplit, hall⟩ := h.2
    exact ⟨pre, post, hsplit, fun b hb => by simpa using hall b hb⟩
  · intro a msg ha hfail acc
    constructor <;> simp [processSource, ha, hfail]

/-- C1 witness: the amended behaviour at the concrete two-adapter setup of
the counterexample. -/
theorem c1_witness :
    (advA.canHandle srcC1 = true ∧
      ∃ pre post, [advA, advB] = pre ++ advA :: post ∧
        ∀ b ∈ pre, b.canHandle srcC1 = false) ∧
    processSource [advA, advB] true ([], []) srcC1 =
      .ok ([], [{ type := "a", name := none, message := "A cannot parse" }]) ∧
    processSource [advA, advB] false ([], []) srcC1 =
      .error (wrapInvokeError "a" "A cannot parse") := by
  refine ⟨(c1_first_adapter_no_fallthrough [advA, advB] srcC1).1 advA rfl, ?_, ?_⟩
  · exact ((c1_first_adapter_no_fallthrough [advA, advB] srcC1).2
      advA "A cannot parse" rfl rfl ([], [])).1
  · exact ((c1_first_adapter_no_fallthrough [advA, advB] srcC1).2
      advA "A cannot parse" rfl rfl ([], [])).2

theorem applyTransforms_preserve (w j : Nat) (hne : j ≠ w)
    (transforms : List (ServiceDefinition → ServiceDefinition)) :
    ∀ st : List ServiceDefinition,
      (applyTransforms w transforms st)[j]? = st[j]? := by
  induction transforms with
  | nil => intro st; rfl
  | cons t ts ih =>
    intro st
    show (applyTransforms w ts _)[j]? = _
    rw [ih]
    show (match st[w]? with
      | some x => st.set w (t x)
      | none => st)[j]? = st[j]?
    cases h : st[w]? with
    | none => simp only [h]
    | some x =>
      simp only [h]
      exact List.getElem?_set_ne (fun he => hne he.symm)

theorem applyExtensionPhase_preserve (w j : Nat) (hne : j ≠ w)
    (extensions : List NormalizerExtension) (inputs : List NormalizerInput)
    (st : List ServiceDefinition) :
    (applyExtensionPhase w extensions inputs st)[j]? = st[j]? := by
  unfold applyExtensionPhase
  split
  · split
    · split
      · exact List.getElem?_set_ne (fun he => hne he.symm)
      · rfl
    · rfl
  · rfl

/-- C10: the normalizer stage never changes the base service definition it
started from — all transform and extension writes land on the freshly
allocated deep clone, so the base cell still holds its original value in
the final store, whatever the transforms do. -/
theorem c10_normalizer_preserves_original
    (store : List ServiceDefinition) (baseAddr : Nat)
    (transforms : List (ServiceDefinition → ServiceDefinition))
    (extensions : List NormalizerExtension) (inputs : List NormalizerInput)
    (base : ServiceDefinition) (hBase : store[baseAddr]? = some base) :
    ((normalizerExecute store baseAddr transforms extensions inputs).1)[baseAddr]? =
      some base := by
  have hlt : baseAddr < store.length := by
    by_contra h
    rw [List.getElem?_eq_none (by omega)] at hBase
    exact Option.noConfusion hBase
  have hne : baseAddr ≠ store.length := Nat.ne_of_lt hlt
  have h1 : (store ++ [base])[baseAddr]? = some base := by
    rw [List.getElem?_append, if_pos hlt, hBase]
  unfold normalizerExecute
  rw [hBase]
  dsimp only
  rw [applyExtensionPhase_preserve _ _ hne, applyTransforms_preserve _ _ hne, h1]

/-- C10 witness: a transform that rewrites the title leaves the base cell of
a one-service store untouched. -/
theorem c10_witness :
    ((normalizerExecute [svcEmpty] 0
        [fun s => { s with title := some "mutated" }] [] []).1)[0]? =
      some svcEmpty :=
  c10_normalizer_preserves_original [svcEmpty] 0
    [fun s => { s with title := some "mutated" }] [] [] svcEmpty rfl

/-- C3 counterexample: for `{ "type": ["string", "null"] }` — a type array
containing `"null"` next to a non-`"null"` member — the converter derives
the `string` kind but reports `nullable = false`: the nullable flag comes
only from the descriptor's own `nullable` field, never from the `"null"`
array member, contradicting the claim that it is set to true. -/
theorem c3_counterexample :
    (jsonSchemaToSchema (.obj [("type", .arr [.str "string", .str "null"])])).bind
        Schema.nullableAttr = some false ∧
    (jsonSchemaToSchema (.obj [("type", .arr [.str "string", .str "null"])])).map
        Schema.kindStr = some "string" := by
  constructor <;>
    simp [jsonSchemaToSchema, getField, lookupField, jsTruthy, isJsObject, jsTruthyOpt,
      primKindOfStr, Schema.nullableAttr, Schema.kindStr, PrimKind.str]

/-- C3 amended: for a descriptor whose `type` is an array containing
`"null"` alongside a (first) non-`"null"` member that is a truthy string,
the converter's result kind is derived from that member via the `switch`
cases — but the nullable flag equals the truthiness of the descriptor's own
`nullable` field (so it is `false` when that field is absent), not `true`
as the claim stated. -/
theorem c3_type_array_kind_and_nullable
    (input : JSValue) (ts : List JSValue) (s : String)
    (hObj : (jsTruthy input && isJsObject input) = true)
    (hType : getField input "type" = some (.arr ts))
    (hNull : ts.any (fun t => match t with | .str s2 => s2 = "null" | _ => false) = true)
    (hFind : ts.find? (fun t => match t with | .str s2 => s2 ≠ "null" | _ => true) =
      some (.str s))
    (hs : s ≠ "") :
    ∃ sch, jsonSchemaToSchema input = some sch ∧
      sch.kindStr = kindForTypeStr s ∧
      sch.nullableAttr = some (jsTruthyOpt (getField input "nullable")) := by
  have hts : jsTruthy (JSValue.str s) = true := by simp [jsTruthy, hs]
  rw [jsonSchemaToSchema.eq_def]
  simp only [hType, hNull, hFind, hObj, if_true, hts, jsTruthyOpt]
  by_cases h1 : s = "object"
  · subst h1
    exact ⟨_, rfl, rfl, rfl⟩
  · by_cases h2 : s = "array"
    · subst h2
      exact ⟨_, rfl, rfl, rfl⟩
    · simp only [if_neg h1, if_neg h2]
      cases hk : primKindOfStr s with
      | some k =>
        refine ⟨_, rfl, ?_, rfl⟩
        simp [Schema.kindStr, kindForTypeStr, h1, h2, hk]
      | none =>
        refine ⟨_, rfl, ?_, rfl⟩
        simp [Schema.kindStr, kindForTypeStr, h1, h2, hk, PrimKind.str]

/-- C3 witness: `{ "type": ["null", "boolean"], "nullable": true }` resolves
to the `boolean` kind with the nullable flag read from the `nullable`
field. -/
theorem c3_witness :
    ∃ sch,
      jsonSchemaToSchema
          (.obj [("type", .arr [.str "null", .str "boolean"]), ("nullable", .bool true)]) =
        some sch ∧
      sch.kindStr = kindForTypeStr "boolean" ∧
      sch.nullableAttr = some (jsTruthyOpt (getField
        (.obj [("type", .arr [.str "null", .str "boolean"]), ("nullable", .bool true)])
        "nullable")) :=
  c3_type_array_kind_and_nullable _ _ _ rfl rfl rfl rfl (by decide)

/-- The `GET /widgets/{id}` endpoint of the path-collision scenario. -/
def epWidgetsGet : EndpointDefinition :=
  { id := "getWidget", path := "/widgets/\x7bid\x7d", method := .GET }

/-- The `DELETE /widgets/{id}` endpoint of the path-collision scenario. -/
def epWidgetsDelete : EndpointDefinition :=
  { id := "deleteWidget", path := "/widgets/\x7bid\x7d", method := .DELETE }

/-- A service whose only two endpoints share the path `/widgets/{id}`. -/
def svcWidgets : ServiceDefinition :=
  { endpoints := [epWidgetsGet, epWidgetsDelete] }

/-- C5: the two endpoints sharing `/widgets/{id}` get the two distinct
filenames `widgets/id-get.ts` / `widgets/id-delete.ts` (files 2 and 3 of
the bundle, in endpoint order: GET then DELETE), and each file's content
contains its `Auto-generated for METHOD /widgets/{id}` signature. -/
theorem c5_path_collision_law :
    ((generateClientSource svcWidgets none).files.map (·.filename)) =
      ["index.ts", "transport.ts", "widgets/id-get.ts", "widgets/id-delete.ts"] ∧
    ("widgets/id-get.ts" : String) ≠ "widgets/id-delete.ts" ∧
    (((generateClientSource svcWidgets none).files.map (·.content))[2]?.map
      (fun c => strContains c "Auto-generated for GET /widgets/\x7bid\x7d")) = some true ∧
    (((generateClientSource svcWidgets none).files.map (·.content))[3]?.map
      (fun c => strContains c "Auto-generated for DELETE /widgets/\x7bid\x7d")) = some true :=
  ⟨by decide, by decide, by decide, by decide⟩

/-- A service with a custom type and no endpoints, used against C2. -/
def svcTypesOnly : ServiceDefinition :=
  { types := some [("Foo", .prim .string none {})], endpoints := [] }

/-- C2 counterexample: for a service with a non-empty types map the entry
file's first export line is the transport file's, not the types file's as
the claim states — the types line comes second. -/
theorem c2_counterexample :
    (renderTypesFile svcTypesOnly).isSome = true ∧
    ((generateClientSource svcTypesOnly none).files.head?.map (·.content)) =
      some ("export * from \x27./transport\x27;\nexport * from \x27./types\x27;\n") ∧
    ("export * from \x27./transport\x27;" : String) ≠ "export * from \x27./types\x27;" :=
  ⟨by decide, by decide, by decide⟩

theorem renderTypesFile_some (service : ServiceDefinition)
    (h : service.types.getD [] ≠ []) :
    ∃ c, renderTypesFile service = some { filename := "types.ts", content := c } := by
  unfold renderTypesFile
  rw [if_neg (by simpa using h)]
  exact ⟨_, rfl⟩

/-- C2 amended: for every service with a non-empty types map, the default
entry file `index.ts` re-exports every generated module with the transport
file's export line first, then the types file's, then one line per
endpoint file in endpoint order. -/
theorem c2_entry_reexport_order (service : ServiceDefinition)
    (h : service.types.getD [] ≠ []) :
    ((generateClientSource service none).files.head?.map (·.filename)) = some "index.ts" ∧
    ((generateClientSource service none).files.head?.map (·.content)) =
      some (String.intercalate "\n"
        (exportLineFor "transport.ts" :: exportLineFor "types.ts" ::
          (endpointFilenames service).map exportLineFor) ++ "\n") := by
  obtain ⟨c, hTf⟩ := renderTypesFile_some service h
  constructor
  · simp only [generateClientSource, hTf]
    rfl
  · simp only [generateClientSource, hTf, endpointFilenames, List.map_map]
    rfl

/-- C2 witness: the amended export order at the one-type service. -/
theorem c2_witness :
    ((generateClientSource svcTypesOnly none).files.head?.map (·.filename)) =
      some "index.ts" ∧
    ((generateClientSource svcTypesOnly none).files.head?.map (·.content)) =
      some (String.intercalate "\n"
        (exportLineFor "transport.ts" :: exportLineFor "types.ts" ::
          (endpointFilenames svcTypesOnly).map exportLineFor) ++ "\n") :=
  c2_entry_reexport_order svcTypesOnly (by simp [svcTypesOnly])

theorem append_ne_empty_left {s t : String} (hs : s ≠ "") : s ++ t ≠ "" := by
  intro he
  apply hs
  have hd : (s ++ t).data = [] := by rw [he]
  rw [String.data_append] at hd
  exact String.ext (List.append_eq_nil.mp hd).1

theorem append_ne_empty_right {s t : String} (ht : t ≠ "") : s ++ t ≠ "" := by
  intro he
  apply ht
  have hd : (s ++ t).data = [] := by rw [he]
  rw [String.data_append] at hd
  exact String.ext (List.append_eq_nil.mp hd).2

theorem normalizePathSegment_ne_empty (seg : String) (i : Nat) :
    normalizePathSegment seg i ≠ "" := by
  unfold normalizePathSegment
  dsimp only
  split_ifs <;> first | assumption | exact append_ne_empty_left (by decide)

theorem extractPathSegments_ne_nil (p b : String) (i : Nat) :
    extractPathSegments p b i ≠ [] := by
  unfold extractPathSegments
  dsimp only
  split_ifs <;> simp_all

theorem extractPathSegments_all_ne (p b : String) (i : Nat) :
    ∀ s ∈ extractPathSegments p b i, s ≠ "" := by
  unfold extractPathSegments
  dsimp only
  split_ifs with h1 h2
  · intro s hs
    rw [List.mem_map] at hs
    obtain ⟨q, _, hq⟩ := hs
    rw [← hq]
    exact normalizePathSegment_ne_empty _ _
  · intro s hs
    rw [List.mem_singleton] at hs
    rw [hs]
    exact h2
  · intro s hs
    rw [List.mem_singleton] at hs
    rw [hs]
    exact append_ne_empty_left (by decide)

theorem hasSlash_append_mid (x z : String) : hasSlash (x ++ "/" ++ z) = true := by
  simp [hasSlash, String.data_append]

theorem hasSlash_joinCore (x y : String) (l : List String) :
    hasSlash (joinCore (x :: y :: l)) = true :=
  hasSlash_append_mid x (joinCore (y :: l))

theorem hasSlash_joinCore_cons (a : String) (l : List String) (hl : l ≠ []) :
    hasSlash (joinCore (a :: l)) = true := by
  cases l with
  | nil => exact absurd rfl hl
  | cons y t => exact hasSlash_joinCore a y t

theorem hasSlash_posixJoin (ds : List String) (x : String)
    (hds : ds ≠ []) (h2 : ∀ s ∈ ds, s ≠ "") (hx : x ≠ "") :
    hasSlash (posixJoin (ds ++ [x])) = true := by
  unfold posixJoin
  have hfilter : (ds ++ [x]).filter (fun s => decide ¬(s = "")) = ds ++ [x] := by
    apply List.filter_eq_self.mpr
    intro a ha
    rw [List.mem_append] at ha
    rcases ha with ha | ha
    · exact decide_eq_true (h2 a ha)
    · rw [List.mem_singleton] at ha
      rw [ha]
      exact decide_eq_true hx
  rw [hfilter]
  cases ds with
  | nil => exact absurd rfl hds
  | cons d0 t =>
    rw [List.cons_append]
    exact hasSlash_joinCore_cons d0 (t ++ [x]) (by simp)

theorem hasSlash_endpointFilenameFor (allKeys : List String) (e : EndpointDefinition)
    (segs : List String) (h1 : segs ≠ []) (h2 : ∀ s ∈ segs, s ≠ "") :
    hasSlash (endpointFilenameFor allKeys e segs) = true := by
  unfold endpointFilenameFor
  dsimp only
  apply hasSlash_posixJoin
  · by_cases hlen : segs.length > 1
    · rw [if_pos hlen]
      intro hnil
      have hld := List.length_dropLast segs
      rw [hnil] at hld
      simp at hld
      omega
    · rw [if_neg hlen]
      exact h1
  · intro s hs
    by_cases hlen : segs.length > 1
    · rw [if_pos hlen] at hs
      exact h2 s ((List.dropLast_sublist segs).subset hs)
    · rw [if_neg hlen] at hs
      exact h2 s hs
  · exact append_ne_empty_right (by decide)

theorem hasSlash_mem_endpointFilenames (service : ServiceDefinition) :
    ∀ f ∈ endpointFilenames service, hasSlash f = true := by
  intro f hf
  unfold endpointFilenames at hf
  dsimp only at hf
  rw [List.mem_map] at hf
  obtain ⟨i, hi, hfe⟩ := hf
  unfold endpointSegmentsOf at hi
  rw [List.mem_map] at hi
  obtain ⟨q, _, hq⟩ := hi
  rw [← hfe, ← hq]
  dsimp only
  exact hasSlash_endpointFilenameFor _ _ _
    (extractPathSegments_ne_nil _ _ _) (extractPathSegments_all_ne _ _ _)

theorem renderTypesFile_filename (service : ServiceDefinition) (tf : GeneratedFile)
    (h : renderTypesFile service = some tf) : tf.filename = "types.ts" := by
  unfold renderTypesFile at h
  dsimp only at h
  split_ifs at h
  rw [← Option.some.inj h]

theorem generate_filenames_eq (service : ServiceDefinition) :
    ((generateClientSource service none).files.map (·.filename)) =
      "index.ts" :: "transport.ts" ::
        ((match renderTypesFile service with
          | some _ => ["types.ts"]
          | none => []) ++ endpointFilenames service) := by
  cases hTf : renderTypesFile service with
  | none =>
    simp only [generateClientSource, hTf, endpointFilenames, List.map_map,
      List.map_cons, List.nil_append, List.singleton_append, List.cons_append]
    rfl
  | some tf =>
    have hname := renderTypesFile_filename _ _ hTf
    simp only [generateClientSource, hTf, endpointFilenames, List.map_map,
      List.map_cons, List.map_append, List.singleton_append, List.cons_append,
      List.nil_append, List.take_succ_cons, List.take_zero, List.drop_succ_cons,
      List.drop_zero, hname]
    rfl

theorem bundle_names_nodup_count (T E : List String)
    (hT : T = [] ∨ T = ["types.ts"])
    (hE : ∀ f ∈ E, hasSlash f = true) (hEnd : E.Nodup) :
    ("index.ts" :: "transport.ts" :: (T ++ E)).Nodup ∧
    ("index.ts" :: "transport.ts" :: (T ++ E)).count "index.ts" = 1 := by
  have hIE : "index.ts" ∉ E := fun hm => by
    have ha := hE _ hm
    have hb : hasSlash "index.ts" = false := by decide
    rw [hb] at ha
    exact Bool.noConfusion ha
  have hTE : "transport.ts" ∉ E := fun hm => by
    have ha := hE _ hm
    have hb : hasSlash "transport.ts" = false := by decide
    rw [hb] at ha
    exact Bool.noConfusion ha
  have hYE : "types.ts" ∉ E := fun hm => by
    have ha := hE _ hm
    have hb : hasSlash "types.ts" = false := by decide
    rw [hb] at ha
    exact Bool.noConfusion ha
  constructor
  · rw [List.nodup_cons, List.nodup_cons, List.nodup_append]
    refine ⟨?_, ?_, ?_, hEnd, ?_⟩
    · rcases hT with hT | hT <;> subst hT <;>
        simp_all [List.mem_cons, List.mem_append]
    · rcases hT with hT | hT <;> subst hT <;>
        simp_all [List.mem_append]
    · rcases hT with hT | hT <;> subst hT <;> simp
    · intro t ht
      rcases hT with hT | hT <;> subst hT
      · simp at ht
      · rw [List.mem_singleton] at ht
        subst ht
        exact hYE
  · rw [List.count_cons_self]
    have h0 : ("transport.ts" :: (T ++ E)).count "index.ts" = 0 := by
      apply List.count_eq_zero.mpr
      rcases hT with hT | hT <;> subst hT <;>
        simp_all [List.mem_cons, List.mem_append]
    rw [h0]

/-- A service whose endpoints collide on derived filenames: `/a/b0` with
`GET` and `DELETE` both receive the method suffix, and `/a/b0Get` kebab-
normalizes to the same `b0-get` base — three distinct (path, method)
pairs, two identical filenames. -/
def svcColl : ServiceDefinition :=
  { endpoints :=
      [{ id := "opA", path := "/a/b0", method := .GET },
       { id := "opB", path := "/a/b0", method := .DELETE },
       { id := "opC", path := "/a/b0Get", method := .PUT }] }

/-- C4 counterexample: the bundle for `svcColl` carries the filename
`a/b0-get.ts` twice, so the generated filenames are not pairwise distinct
even though all (path, method) pairs differ. -/
theorem c4_counterexample :
    ¬ (((generateClientSource svcColl none).files.map (·.filename)).Nodup) ∧
    ((generateClientSource svcColl none).files.map (·.filename)) =
      ["index.ts", "transport.ts", "a/b0-get.ts", "a/b0-delete.ts", "a/b0-get.ts"] ∧
    svcColl.endpoints.map (fun e => (e.path, e.method.str)) =
      [("/a/b0", "GET"), ("/a/b0", "DELETE"), ("/a/b0Get", "PUT")] :=
  ⟨by decide, by decide, by decide⟩

/-- C4 amended: whenever the endpoints' derived filenames (normalized path
segments, method-suffixed on shared segment paths) are pairwise distinct,
the bundle's filenames are pairwise distinct; and the entrypoint — the
default `index.ts` — matches the filename of exactly one file, because the
per-endpoint files always live in a subdirectory and so never collide with
`index.ts`, `transport.ts` or `types.ts`. -/
theorem c4_bundle_filename_uniqueness (service : ServiceDefinition)
    (h : (endpointFilenames service).Nodup) :
    (((generateClientSource service none).files.map (·.filename)).Nodup) ∧
    (generateClientSource service none).entrypoint = "index.ts" ∧
    (((generateClientSource service none).files.map (·.filename)).count
      (generateClientSource service none).entrypoint = 1) := by
  have hep : (generateClientSource service none).entrypoint = "index.ts" := rfl
  have hsh := generate_filenames_eq service
  have hkey := bundle_names_nodup_count
    (match renderTypesFile service with | some _ => ["types.ts"] | none => [])
    (endpointFilenames service)
    (by cases renderTypesFile service <;> simp)
    (hasSlash_mem_endpointFilenames service) h
  refine ⟨?_, hep, ?_⟩
  · rw [hsh]
    exact hkey.1
  · rw [hsh, hep]
    exact hkey.2

/-- A one-endpoint service with collision-free filenames. -/
def svcPets : ServiceDefinition :=
  { endpoints := [{ id := "listPets", path := "/pets", method := .GET }] }

/-- C4 witness: at `svcPets` the derived filenames are distinct and the
bundle's filename invariants hold. -/
theorem c4_witness :
    (endpointFilenames svcPets).Nodup ∧
    ((((generateClientSource svcPets none).files.map (·.filename)).Nodup) ∧
     (generateClientSource svcPets none).entrypoint = "index.ts" ∧
     (((generateClientSource svcPets none).files.map (·.filename)).count
       (generateClientSource svcPets none).entrypoint = 1)) :=
  ⟨by decide, c4_bundle_filename_uniqueness svcPets (by decide)⟩

end FeApiProxy
